import Mathlib

set_option maxHeartbeats 1000000

namespace Integra

/-! Shallow embedding of the part-tree subsystem of the Integra game
(src/src/assets/parts.rs, src/src/main.rs, src/src/assets/projectiles.rs).
Machine `u32` values are modelled as `Nat` with explicit reduction modulo
`2 ^ 32` where the source can overflow; `f32` stat fields are modelled as
exact rationals; ECS entity ids are `Nat`; geometric pose data (translations,
quaternion rotations) is abstracted to presence because no claim depends on
its numeric value. Rust `panic!`/`unwrap` failures surface as `Except.error`;
the warn-and-return paths surface as `Except.ok` with the unchanged state. -/

/-- Modulus of the Rust `u32` machine integer type. -/
def U32_MOD : Nat := 4294967296

/-- Mirror of `PartStats` (parts.rs lines 58-65): `hp : u32` plus three
optional `f32` fields, the latter modelled as exact rationals. -/
@[ext]
structure PartStats where
  hp : Nat
  speed : Option ℚ
  acceleration : Option ℚ
  force : Option ℚ
deriving DecidableEq, Repr

/-- Mirror of `PartStats::default()` (derived `Default`): zero hp, absent
optional fields. -/
def PartStats.defaultStats : PartStats :=
  { hp := 0, speed := none, acceleration := none, force := none }

/-- Mirror of `impl Add for PartStats` (parts.rs lines 67-80): hp added as a
`u32` (reduced modulo `2 ^ 32`); each optional field is `unwrap_or_default`-ed
on both sides, added, and wrapped in `Some`. -/
def PartStats.add (a b : PartStats) : PartStats :=
  { hp := (a.hp + b.hp) % U32_MOD
  , speed := some (a.speed.getD 0 + b.speed.getD 0)
  , acceleration := some (a.acceleration.getD 0 + b.acceleration.getD 0)
  , force := some (a.force.getD 0 + b.force.getD 0) }

/-- Mirror of `Order` (parts.rs lines 16-22). -/
inductive Order where
  | above
  | below
deriving DecidableEq, Repr

/-- Mirror of `Hardpoint` (parts.rs lines 24-29); `f32` pairs as rationals. -/
structure Hardpoint where
  position : ℚ × ℚ
  direction : ℚ × ℚ
  order : Order
deriving DecidableEq, Repr

/-- Mirror of `PartDef` (parts.rs lines 99-111), omitting the sprite and
weapon descriptors which no claim consults. -/
structure PartDef where
  name : String
  origin : ℚ × ℚ
  direction : ℚ × ℚ
  stay_upright : Option Bool
  chassis : Option Bool
  stats : PartStats
  hardpoints : List Hardpoint
deriving DecidableEq, Repr

/-- Mirror of `CustomPhysicsData` (main.rs lines 29-35). -/
structure CustomPhysicsData where
  part_tree_root : Option Nat
  disable_collision : Bool
deriving DecidableEq, Repr

/-- The fallback value used by `filter_contact_pair` when a collider has no
`CustomPhysicsData` component (main.rs lines 45-56, the `unwrap_or` value). -/
def CustomPhysicsData.fallback : CustomPhysicsData :=
  { part_tree_root := none, disable_collision := false }

/-- Rapier solver flags; the source only ever returns `SolverFlags::all()`,
so a single constructor suffices. -/
inductive SolverFlags where
  | all
deriving DecidableEq, Repr

/-- Mirror of `CustomPhysicsHooks::filter_contact_pair` (main.rs lines
39-65). The inputs are the two colliders' optional `CustomPhysicsData`
query results; `none` models a collider for which the query fails and the
`unwrap_or` fallback applies. Returning `none` tells rapier to skip the
contact; returning `some SolverFlags.all` requests full collision. -/
def filter_contact_pair (d1 d2 : Option CustomPhysicsData) : Option SolverFlags :=
  let root1 := d1.getD CustomPhysicsData.fallback
  let root2 := d2.getD CustomPhysicsData.fallback
  if root1.part_tree_root = root2.part_tree_root then none
  else if root1.disable_collision || root2.disable_collision then none
  else some SolverFlags.all

/-- Outcome of one projectile-part collision as processed by
`apply_projectiles` (projectiles.rs lines 122-127). -/
structure HitOutcome where
  projectile_despawned : Bool
  hp : Nat
  part_despawned : Bool
deriving DecidableEq, Repr

/-- Mirror of the body of `apply_projectiles` for one matched
projectile-part collision (projectiles.rs lines 122-127): the projectile is
despawned unconditionally, `hp` becomes `hp.saturating_sub(damage)` (exactly
truncated `Nat` subtraction), and the part is despawned (detach-then-remove,
via `despawn_part`) exactly when the new hp is zero. -/
def apply_projectile_hit (hp damage : Nat) : HitOutcome :=
  let hp2 := hp - damage
  { projectile_despawned := true, hp := hp2, part_despawned := hp2 == 0 }

/-! ### The stat-aggregation pass (parts.rs lines 179-205)

`accumulate_part_stats` walks a root's live subtree with an explicit stack.
The subtree reachable through `PartChildren` slot lists is modelled as a
rose tree whose children sit in `Option` slots exactly like `PartChildren`:
unpopulated hardpoints are `none` and are skipped by the `filter_map`. -/

/-- A part subtree: the part's `PartStats` together with its `PartChildren`
slot list (a `none` slot is an unpopulated hardpoint). -/
inductive PartTree where
  | node : PartStats → List (Option PartTree) → PartTree

mutual

/-- Number of parts in a subtree. -/
def PartTree.size : PartTree → Nat
  | .node _ cs => 1 + PartTree.sizeSlots cs

/-- Number of parts below a slot list. -/
def PartTree.sizeSlots : List (Option PartTree) → Nat
  | [] => 0
  | none :: rest => PartTree.sizeSlots rest
  | some t :: rest => t.size + PartTree.sizeSlots rest

end

mutual

/-- All stats in a subtree, root first (used only as a multiset of visited
parts; the traversal itself fixes its own order). -/
def PartTree.flatten : PartTree → List PartStats
  | .node s cs => s :: PartTree.flattenSlots cs

/-- All stats below a slot list. -/
def PartTree.flattenSlots : List (Option PartTree) → List PartStats
  | [] => []
  | none :: rest => PartTree.flattenSlots rest
  | some t :: rest => t.flatten ++ PartTree.flattenSlots rest

end

/-- Total weight of a stack of subtrees. -/
def stackWeight (l : List PartTree) : Nat := (l.map PartTree.size).sum

theorem sizeSlots_eq (cs : List (Option PartTree)) :
    PartTree.sizeSlots cs = ((cs.filterMap id).map PartTree.size).sum := by
  induction cs with
  | nil => simp [PartTree.sizeSlots]
  | cons hd tl ih =>
    cases hd with
    | none => simpa [PartTree.sizeSlots] using ih
    | some t => simp [PartTree.sizeSlots, ih]

/-- Mirror of the `while` loop of `accumulate_part_stats` (parts.rs lines
188-203): pop the top of the stack, push its populated children slots (in
slot order, hence popped in reverse), and add the popped part's stats to the
accumulator. The list head is the top of the stack. -/
def accumulate_stack : List PartTree → PartStats → PartStats
  | [], acc => acc
  | .node s cs :: rest, acc =>
      accumulate_stack ((cs.filterMap id).reverse ++ rest) (acc.add s)
termination_by stack _ => stackWeight stack
decreasing_by
  simp [stackWeight, PartTree.size, List.map_append, List.sum_append,
    List.map_reverse, List.sum_reverse, sizeSlots_eq]

/-- Mirror of the per-root body of `accumulate_part_stats` (parts.rs lines
184-204): `cumulative_stats` is reset to `default()`, the root is pushed,
and the stack loop runs. -/
def accumulate_part_stats (root : PartTree) : PartStats :=
  accumulate_stack [root] PartStats.defaultStats

/-- Sum of the hp components of a list of stats. -/
def hpTotal (l : List PartStats) : Nat := (l.map PartStats.hp).sum

/-- Sum of the speed components, absent fields counted as zero. -/
def speedTotal (l : List PartStats) : ℚ := (l.map (fun s => s.speed.getD 0)).sum

/-- Sum of the acceleration components, absent fields counted as zero. -/
def accelTotal (l : List PartStats) : ℚ :=
  (l.map (fun s => s.acceleration.getD 0)).sum

/-- Sum of the force components, absent fields counted as zero. -/
def forceTotal (l : List PartStats) : ℚ := (l.map (fun s => s.force.getD 0)).sum

/-- All stats in a stack of subtrees, in stack order. -/
def stackFlatten (l : List PartTree) : List PartStats :=
  (l.map PartTree.flatten).flatten

theorem stackFlatten_nil : stackFlatten [] = [] := rfl

theorem stackFlatten_cons (t : PartTree) (rest : List PartTree) :
    stackFlatten (t :: rest) = t.flatten ++ stackFlatten rest := by
  simp [stackFlatten]

theorem stackFlatten_append (l1 l2 : List PartTree) :
    stackFlatten (l1 ++ l2) = stackFlatten l1 ++ stackFlatten l2 := by
  simp [stackFlatten]

theorem flattenSlots_eq_stackFlatten (cs : List (Option PartTree)) :
    PartTree.flattenSlots cs = stackFlatten (cs.filterMap id) := by
  induction cs with
  | nil => rfl
  | cons hd tl ih =>
    cases hd with
    | none => simpa [PartTree.flattenSlots] using ih
    | some t => simp [PartTree.flattenSlots, stackFlatten_cons, ih]

theorem hpTotal_append (l1 l2 : List PartStats) :
    hpTotal (l1 ++ l2) = hpTotal l1 + hpTotal l2 := by
  simp [hpTotal]

theorem speedTotal_append (l1 l2 : List PartStats) :
    speedTotal (l1 ++ l2) = speedTotal l1 + speedTotal l2 := by
  simp [speedTotal]

theorem accelTotal_append (l1 l2 : List PartStats) :
    accelTotal (l1 ++ l2) = accelTotal l1 + accelTotal l2 := by
  simp [accelTotal]

theorem forceTotal_append (l1 l2 : List PartStats) :
    forceTotal (l1 ++ l2) = forceTotal l1 + forceTotal l2 := by
  simp [forceTotal]

theorem hpTotal_nil : hpTotal [] = 0 := rfl

theorem speedTotal_nil : speedTotal [] = 0 := rfl

theorem accelTotal_nil : accelTotal [] = 0 := rfl

theorem forceTotal_nil : forceTotal [] = 0 := rfl

theorem hpTotal_reverse (l : List PartStats) : hpTotal l.reverse = hpTotal l := by
  simp [hpTotal, List.map_reverse, List.sum_reverse]

theorem speedTotal_reverse (l : List PartStats) :
    speedTotal l.reverse = speedTotal l := by
  simp [speedTotal, List.map_reverse, List.sum_reverse]

theorem accelTotal_reverse (l : List PartStats) :
    accelTotal l.reverse = accelTotal l := by
  simp [accelTotal, List.map_reverse, List.sum_reverse]

theorem forceTotal_reverse (l : List PartStats) :
    forceTotal l.reverse = forceTotal l := by
  simp [forceTotal, List.map_reverse, List.sum_reverse]

theorem hpTotal_stackFlatten_reverse (l : List PartTree) :
    hpTotal (stackFlatten l.reverse) = hpTotal (stackFlatten l) := by
  induction l with
  | nil => rfl
  | cons t rest ih =>
    simp [stackFlatten_cons, stackFlatten_append, hpTotal_append, ih,
      stackFlatten_nil, hpTotal_nil]
    omega

theorem speedTotal_stackFlatten_reverse (l : List PartTree) :
    speedTotal (stackFlatten l.reverse) = speedTotal (stackFlatten l) := by
  induction l with
  | nil => rfl
  | cons t rest ih =>
    simp [stackFlatten_cons, stackFlatten_append, speedTotal_append, ih,
      stackFlatten_nil, speedTotal_nil]
    ring

theorem accelTotal_stackFlatten_reverse (l : List PartTree) :
    accelTotal (stackFlatten l.reverse) = accelTotal (stackFlatten l) := by
  induction l with
  | nil => rfl
  | cons t rest ih =>
    simp [stackFlatten_cons, stackFlatten_append, accelTotal_append, ih,
      stackFlatten_nil, accelTotal_nil]
    ring

theorem forceTotal_stackFlatten_reverse (l : List PartTree) :
    forceTotal (stackFlatten l.reverse) = forceTotal (stackFlatten l) := by
  induction l with
  | nil => rfl
  | cons t rest ih =>
    simp [stackFlatten_cons, stackFlatten_append, forceTotal_append, ih,
      stackFlatten_nil, forceTotal_nil]
    ring

theorem accumulate_stack_spec (stack : List PartTree) (acc : PartStats)
    (hacc : acc.hp < U32_MOD) :
    (accumulate_stack stack acc).hp
        = (acc.hp + hpTotal (stackFlatten stack)) % U32_MOD
    ∧ (accumulate_stack stack acc).speed
        = (if stack.isEmpty then acc.speed
           else some (acc.speed.getD 0 + speedTotal (stackFlatten stack)))
    ∧ (accumulate_stack stack acc).acceleration
        = (if stack.isEmpty then acc.acceleration
           else some (acc.acceleration.getD 0 + accelTotal (stackFlatten stack)))
    ∧ (accumulate_stack stack acc).force
        = (if stack.isEmpty then acc.force
           else some (acc.force.getD 0 + forceTotal (stackFlatten stack))) := by
  induction stack, acc using accumulate_stack.induct with
  | case1 acc =>
    simp [accumulate_stack, stackFlatten_nil, hpTotal, Nat.mod_eq_of_lt hacc]
  | case2 s cs rest acc ih =>
    have hlt : (acc.add s).hp < U32_MOD := by
      have : 0 < U32_MOD := by decide
      exact Nat.mod_lt _ this
    obtain ⟨h1, h2, h3, h4⟩ := ih hlt
    have hflat : stackFlatten (PartTree.node s cs :: rest)
        = s :: (PartTree.flattenSlots cs ++ stackFlatten rest) := by
      simp [stackFlatten_cons, PartTree.flatten]
    have hflat2 : stackFlatten ((cs.filterMap id).reverse ++ rest)
        = stackFlatten (cs.filterMap id).reverse ++ stackFlatten rest :=
      stackFlatten_append _ _
    rw [show accumulate_stack (PartTree.node s cs :: rest) acc
        = accumulate_stack ((cs.filterMap id).reverse ++ rest) (acc.add s) from by
      rw [accumulate_stack]]
    refine ⟨?_, ?_, ?_, ?_⟩
    · rw [h1, hflat2, hpTotal_append, hpTotal_stackFlatten_reverse,
        ← flattenSlots_eq_stackFlatten, hflat]
      show ((acc.hp + s.hp) % U32_MOD
          + (hpTotal (PartTree.flattenSlots cs) + hpTotal (stackFlatten rest)))
          % U32_MOD = _
      rw [Nat.mod_add_mod]
      have : hpTotal (s :: (PartTree.flattenSlots cs ++ stackFlatten rest))
          = s.hp + (hpTotal (PartTree.flattenSlots cs)
            + hpTotal (stackFlatten rest)) := by
        simp [hpTotal]
      rw [this, Nat.add_assoc]
    · rw [h2]
      by_cases hempty : ((cs.filterMap id).reverse ++ rest).isEmpty
      · rw [if_pos hempty]
        have hcs : cs.filterMap id = [] := by
          rcases List.append_eq_nil.mp (List.isEmpty_iff.mp hempty) with ⟨ha, _⟩
          simpa using congrArg List.reverse ha
        have hrest : rest = [] :=
          (List.append_eq_nil.mp (List.isEmpty_iff.mp hempty)).2
        subst hrest
        simp [PartStats.add, hflat, speedTotal,
          flattenSlots_eq_stackFlatten, hcs, stackFlatten_nil]
      · rw [if_neg hempty, if_neg (by simp)]
        rw [hflat2, speedTotal_append, speedTotal_stackFlatten_reverse,
          ← flattenSlots_eq_stackFlatten, hflat]
        have : speedTotal (s :: (PartTree.flattenSlots cs ++ stackFlatten rest))
            = s.speed.getD 0 + (speedTotal (PartTree.flattenSlots cs)
              + speedTotal (stackFlatten rest)) := by
          simp [speedTotal]
        rw [this]
        show some ((PartStats.add acc s).speed.getD 0 + _) = _
        simp [PartStats.add]
        ring
    · rw [h3]
      by_cases hempty : ((cs.filterMap id).reverse ++ rest).isEmpty
      · rw [if_pos hempty]
        have hcs : cs.filterMap id = [] := by
          rcases List.append_eq_nil.mp (List.isEmpty_iff.mp hempty) with ⟨ha, _⟩
          simpa using congrArg List.reverse ha
        have hrest : rest = [] :=
          (List.append_eq_nil.mp (List.isEmpty_iff.mp hempty)).2
        subst hrest
        simp [PartStats.add, hflat, accelTotal,
          flattenSlots_eq_stackFlatten, hcs, stackFlatten_nil]
      · rw [if_neg hempty, if_neg (by simp)]
        rw [hflat2, accelTotal_append, accelTotal_stackFlatten_reverse,
          ← flattenSlots_eq_stackFlatten, hflat]
        have : accelTotal (s :: (PartTree.flattenSlots cs ++ stackFlatten rest))
            = s.acceleration.getD 0 + (accelTotal (PartTree.flattenSlots cs)
              + accelTotal (stackFlatten rest)) := by
          simp [accelTotal]
        rw [this]
        show some ((PartStats.add acc s).acceleration.getD 0 + _) = _
        simp [PartStats.add]
        ring
    · rw [h4]
      by_cases hempty : ((cs.filterMap id).reverse ++ rest).isEmpty
      · rw [if_pos hempty]
        have hcs : cs.filterMap id = [] := by
          rcases List.append_eq_nil.mp (List.isEmpty_iff.mp hempty) with ⟨ha, _⟩
          simpa using congrArg List.reverse ha
        have hrest : rest = [] :=
          (List.append_eq_nil.mp (List.isEmpty_iff.mp hempty)).2
        subst hrest
        simp [PartStats.add, hflat, forceTotal,
          flattenSlots_eq_stackFlatten, hcs, stackFlatten_nil]
      · rw [if_neg hempty, if_neg (by simp)]
        rw [hflat2, forceTotal_append, forceTotal_stackFlatten_reverse,
          ← flattenSlots_eq_stackFlatten, hflat]
        have : forceTotal (s :: (PartTree.flattenSlots cs ++ stackFlatten rest))
            = s.force.getD 0 + (forceTotal (PartTree.flattenSlots cs)
              + forceTotal (stackFlatten rest)) := by
          simp [forceTotal]
        rw [this]
        show some ((PartStats.add acc s).force.getD 0 + _) = _
        simp [PartStats.add]
        ring

/-- The per-root aggregation result, in closed form: hp is the subtree hp
sum (as a u32), the optional fields are `some` of the subtree sums with
absent fields counted as zero. -/
theorem accumulate_part_stats_eq (t : PartTree) :
    accumulate_part_stats t
      = { hp := hpTotal t.flatten % U32_MOD
        , speed := some (speedTotal t.flatten)
        , acceleration := some (accelTotal t.flatten)
        , force := some (forceTotal t.flatten) } := by
  obtain ⟨h1, h2, h3, h4⟩ :=
    accumulate_stack_spec [t] PartStats.defaultStats (by decide)
  have hflat : stackFlatten [t] = t.flatten := by
    simp [stackFlatten]
  apply PartStats.ext
  · rw [accumulate_part_stats] at *
    rw [h1, hflat]
    simp [PartStats.defaultStats]
  · rw [accumulate_part_stats] at *
    rw [h2, hflat]
    simp [PartStats.defaultStats]
  · rw [accumulate_part_stats] at *
    rw [h3, hflat]
    simp [PartStats.defaultStats]
  · rw [accumulate_part_stats] at *
    rw [h4, hflat]
    simp [PartStats.defaultStats]

/-! ### Sibling shuffles (claim C7) -/

mutual

/-- Two subtrees are equal up to shuffling the order of siblings: same
stats at every node, children slot lists related by a permutation whose
elements are recursively shuffled. -/
inductive TreePerm : PartTree → PartTree → Prop where
  | node (s : PartStats) (cs ds : List (Option PartTree)) :
      SlotsPerm cs ds → TreePerm (.node s cs) (.node s ds)

/-- Slot-wise lift of `TreePerm` to `Option`. -/
inductive SlotPerm : Option PartTree → Option PartTree → Prop where
  | none : SlotPerm none none
  | some (t u : PartTree) : TreePerm t u → SlotPerm (some t) (some u)

/-- Permutation of slot lists with recursively shuffled elements (the
constructors of `List.Perm` with `SlotPerm` at the elements). -/
inductive SlotsPerm : List (Option PartTree) → List (Option PartTree) → Prop where
  | nil : SlotsPerm [] []
  | cons (a b : Option PartTree) (l1 l2 : List (Option PartTree)) :
      SlotPerm a b → SlotsPerm l1 l2 → SlotsPerm (a :: l1) (b :: l2)
  | swap (a b : Option PartTree) (l : List (Option PartTree)) :
      SlotsPerm (a :: b :: l) (b :: a :: l)
  | trans (l1 l2 l3 : List (Option PartTree)) :
      SlotsPerm l1 l2 → SlotsPerm l2 l3 → SlotsPerm l1 l3

end

/-- The stats below one slot. -/
def slotFlatten : Option PartTree → List PartStats
  | none => []
  | some t => t.flatten

theorem flattenSlots_cons (a : Option PartTree) (l : List (Option PartTree)) :
    PartTree.flattenSlots (a :: l) = slotFlatten a ++ PartTree.flattenSlots l := by
  cases a with
  | none => simp [PartTree.flattenSlots, slotFlatten]
  | some t => simp [PartTree.flattenSlots, slotFlatten]

/-- A sibling shuffle permutes the multiset of stats in the subtree. -/
theorem treePerm_flatten_perm (t u : PartTree) (h : TreePerm t u) :
    t.flatten.Perm u.flatten := by
  refine TreePerm.rec
    (motive_1 := fun t u _ => t.flatten.Perm u.flatten)
    (motive_2 := fun a b _ => (slotFlatten a).Perm (slotFlatten b))
    (motive_3 := fun cs ds _ =>
      (PartTree.flattenSlots cs).Perm (PartTree.flattenSlots ds))
    ?_ ?_ ?_ ?_ ?_ ?_ ?_ h
  · intro s cs ds _ ih
    simpa [PartTree.flatten] using ih.cons s
  · exact List.Perm.refl _
  · intro t u _ ih
    simpa [slotFlatten] using ih
  · exact List.Perm.refl _
  · intro a b l1 l2 _ _ iha ihl
    simpa [flattenSlots_cons] using iha.append ihl
  · intro a b l
    simp only [flattenSlots_cons, ← List.append_assoc]
    exact (List.perm_append_comm.append_right _)
  · intro l1 l2 l3 _ _ ih1 ih2
    exact ih1.trans ih2

theorem hpTotal_perm (l1 l2 : List PartStats) (h : l1.Perm l2) :
    hpTotal l1 = hpTotal l2 := by
  simpa [hpTotal] using (h.map PartStats.hp).sum_eq

theorem speedTotal_perm (l1 l2 : List PartStats) (h : l1.Perm l2) :
    speedTotal l1 = speedTotal l2 := by
  simpa [speedTotal] using (h.map (fun s => s.speed.getD 0)).sum_eq

theorem accelTotal_perm (l1 l2 : List PartStats) (h : l1.Perm l2) :
    accelTotal l1 = accelTotal l2 := by
  simpa [accelTotal] using (h.map (fun s => s.acceleration.getD 0)).sum_eq

theorem forceTotal_perm (l1 l2 : List PartStats) (h : l1.Perm l2) :
    forceTotal l1 = forceTotal l2 := by
  simpa [forceTotal] using (h.map (fun s => s.force.getD 0)).sum_eq

/-! ### ECS world model for `attach_part` / `detach_part` / `despawn_part`
(parts.rs lines 518-681)

Entities are `Nat` ids; a world is an association list of the components the
attachment engine reads or writes. Pose values (the `Transform` translation
and rotation, the joint anchors) are floating-point geometry no claim
depends on, so only their presence is tracked. `LockedAxes` bitflags use
the rapier bit values. -/

/-- Rapier `LockedAxes::TRANSLATION_LOCKED_Z` bit. -/
def TRANSLATION_LOCKED_Z : Nat := 4

/-- Rapier `LockedAxes::ROTATION_LOCKED` bits. -/
def ROTATION_LOCKED : Nat := 56

/-- The components of one entity that the attachment engine touches.
`partChildren` is the `PartChildren` slot list, `partParent` the
`PartParent` back-pointer, `partTreeRoot` the `PartTreeRoot` root-aggregate
component (holding `cumulative_stats`), `impulseJoint` the `ImpulseJoint`
to the recorded parent entity (anchor pose abstracted), `transformPresent`
whether a `Transform` is present, `bevyChildren` the engine `Children`
hierarchy list (used by the detach traversal). -/
structure EntityData where
  customData : Option CustomPhysicsData
  partDef : Option PartDef
  partChildren : Option (List (Option Nat))
  partParent : Option Nat
  partTreeRoot : Option PartStats
  impulseJoint : Option Nat
  transformPresent : Bool
  playerOwned : Bool
  enemyOwned : Bool
  bevyChildren : List Nat
  lockedAxes : Option Nat
deriving DecidableEq, Repr

/-- A world: association list from entity id to its components. -/
def World : Type := List (Nat × EntityData)

instance : DecidableEq World := by
  unfold World
  infer_instance

instance {α β : Type} [DecidableEq α] [DecidableEq β] :
    DecidableEq (Except α β)
  | Except.error a, Except.error b =>
      if h : a = b then isTrue (by rw [h])
      else isFalse (by intro hc; cases hc; exact h rfl)
  | Except.error _, Except.ok _ => isFalse (by intro hc; cases hc)
  | Except.ok _, Except.error _ => isFalse (by intro hc; cases hc)
  | Except.ok a, Except.ok b =>
      if h : a = b then isTrue (by rw [h])
      else isFalse (by intro hc; cases hc; exact h rfl)

/-- `world.get_entity(id)`. -/
def World.get (w : World) (id : Nat) : Option EntityData :=
  (List.find? (fun p => p.1 == id) w).map (fun p => p.2)

/-- Overwrite the components of an existing entity. -/
def World.set (w : World) (id : Nat) (d : EntityData) : World :=
  List.map (fun p => if p.1 = id then (id, d) else p) w

/-- Remove an entity (bevy `despawn`). -/
def World.despawn (w : World) (id : Nat) : World :=
  List.filter (fun p => p.1 ≠ id) w

theorem World.get_set_self (w : World) (id : Nat) (d : EntityData)
    (h : (w.get id).isSome) : (w.set id d).get id = some d := by
  induction w with
  | nil => simp [World.get] at h
  | cons hd tl ih =>
    by_cases he : hd.1 = id
    · simp [World.get, World.set, List.find?, he]
    · have hne : (hd.1 == id) = false := by simpa using he
      simp only [World.get, List.find?, hne] at h
      simp only [World.set, List.map, if_neg he]
      simp only [World.get, List.find?, hne]
      exact ih h

theorem World.get_set_ne (w : World) (id : Nat) (d : EntityData) (j : Nat)
    (h : j ≠ id) : (w.set id d).get j = w.get j := by
  induction w with
  | nil => rfl
  | cons hd tl ih =>
    by_cases he : hd.1 = id
    · have h1 : ((id, d).1 == j) = false := by
        simp [Ne.symm h]
      have h2 : (hd.1 == j) = false := by
        simp [he, Ne.symm h]
      simp only [World.set, List.map, if_pos he]
      simp only [World.get, List.find?, h1, h2]
      exact ih
    · simp only [World.set, List.map, if_neg he]
      simp only [World.get, List.find?]
      cases hb : (hd.1 == j) with
      | true => simp
      | false => exact ih

theorem World.get_set_none (w : World) (id : Nat) (d : EntityData)
    (h : w.get id = none) : (w.set id d).get id = none := by
  induction w with
  | nil => rfl
  | cons hd tl ih =>
    by_cases he : hd.1 = id
    · exfalso
      simp [World.get, List.find?, he] at h
    · have hne : (hd.1 == id) = false := by simpa using he
      simp only [World.get, List.find?, hne] at h
      simp only [World.set, List.map, if_neg he]
      simp only [World.get, List.find?, hne]
      simpa [World.get, World.set] using ih h

theorem World.get_set_isSome (w : World) (id : Nat) (d : EntityData) (j : Nat) :
    ((w.set id d).get j).isSome = (w.get j).isSome := by
  by_cases hj : j = id
  · subst hj
    cases h : w.get j with
    | none => simp [World.get_set_none w j d h, h]
    | some e => simp [World.get_set_self w j d (by simp [h]), h]
  · rw [World.get_set_ne w id d j hj]

/-- `attach_part` (parts.rs lines 518-615), one deferred command applied to
the world. The warn-and-return aborts yield `Except.ok` with the world
unchanged so far; `unwrap` on a missing entity or component yields
`Except.error`. The ownership/tree-root propagation loop (lines 564-576)
pops its single seeded element and pushes nothing, so it runs exactly once,
on `part` itself. -/
def attach_part (w : World) (parent part : Nat) (hardpoint : Nat) :
    Except String World :=
  match w.get parent with
  | none => Except.ok w
  | some pe =>
    match pe.customData with
    | none => Except.ok w
    | some pcd =>
      match pe.partDef with
      | none => Except.ok w
      | some pdef =>
        match pdef.hardpoints[hardpoint]? with
        | none => Except.ok w
        | some _hp =>
          let ownership : Nat :=
            if pe.playerOwned then 1 else if pe.enemyOwned then 2 else 0
          if pe.transformPresent = false then
            Except.error "panic: Transform unwrap on parent"
          else
            match w.get part with
            | none => Except.error "panic: entity_mut on nonexistent part"
            | some ce =>
              let ce1 := { ce with
                playerOwned := ce.playerOwned || ownership == 1,
                enemyOwned := ce.enemyOwned || ownership == 2 }
              match ce1.customData with
              | none =>
                  Except.error "panic: CustomPhysicsData unwrap on part"
              | some ccd =>
                let ce2 := { ce1 with
                  customData :=
                    some { ccd with part_tree_root := pcd.part_tree_root } }
                let w1 := w.set part ce2
                match ce2.partDef with
                | none => Except.error "panic: PartDef unwrap on part"
                | some _cdef =>
                  let w2 := w1.set part { ce2 with
                    transformPresent := true,
                    impulseJoint := some parent,
                    partParent := some parent,
                    lockedAxes := some TRANSLATION_LOCKED_Z,
                    partTreeRoot := none }
                  match w2.get parent with
                  | none => Except.error "panic: entity_mut on parent"
                  | some pe2 =>
                    match pe2.partChildren with
                    | none => Except.ok w2
                    | some children =>
                      match children[hardpoint]? with
                      | none => Except.ok w2
                      | some _ =>
                        Except.ok (w2.set parent { pe2 with
                          partChildren :=
                            some (children.set hardpoint (some part)) })

/-- The inner stack traversal of `detach_part` (parts.rs lines 646-662),
run per severed immediate child `rootId`: pop `next`, strip ownership tags,
push the engine `Children`, point `part_tree_root` at `rootId` and re-enable
collision when physics data is present, and push the populated
`PartChildren` slots (`unwrap` — panic when the component is missing).
Fuel bounds the number of pops; the list head is the top of the stack. -/
def detachTraverse (rootId : Nat) : Nat → World → List Nat → Except String World
  | _, w, [] => Except.ok w
  | 0, _, _ :: _ => Except.error "nontermination fuel exhausted"
  | fuel + 1, w, next :: stack =>
    match w.get next with
    | none => Except.error "panic: entity_mut on nonexistent entity"
    | some ne =>
      match ne.partChildren with
      | none => Except.error "panic: PartChildren unwrap in traversal"
      | some slots =>
        let ne2 := { ne with
          playerOwned := false,
          enemyOwned := false,
          customData := ne.customData.map (fun c =>
            { c with part_tree_root := some rootId,
                     disable_collision := false }) }
        detachTraverse rootId fuel (w.set next ne2)
          ((slots.filterMap id).reverse ++ ne.bevyChildren.reverse ++ stack)

/-- The per-immediate-child severing loop of `detach_part` (parts.rs lines
640-663): remove `PartParent` and the joint, lock the axes, then run the
inner traversal rooted at that child. -/
def severChildren (fuel : Nat) : World → List Nat → Except String World
  | w, [] => Except.ok w
  | w, c :: cs =>
    match w.get c with
    | none => Except.error "panic: entity_mut on nonexistent child"
    | some ce =>
      let ce2 := { ce with
        partParent := none,
        impulseJoint := none,
        lockedAxes := some (TRANSLATION_LOCKED_Z + ROTATION_LOCKED) }
      match detachTraverse c fuel (w.set c ce2) [c] with
      | Except.error e => Except.error e
      | Except.ok w2 => severChildren fuel w2 cs

/-- The finalization of `detach_part` (parts.rs lines 668-671): remove the
joint on `part` and null its `part_tree_root` (`unwrap` — panic when the
physics data is missing). -/
def detachFinal (w : World) (part : Nat) : Except String World :=
  match w.get part with
  | none => Except.error "panic: entity_mut on part"
  | some e =>
    match e.customData with
    | none => Except.error "panic: CustomPhysicsData unwrap on part"
    | some cpd =>
      Except.ok (w.set part { e with
        impulseJoint := none,
        customData := some { cpd with part_tree_root := none } })

/-- The child-severing and finalization tail of `detach_part` (parts.rs
lines 637-671), run after the parent slot has been cleared: sever every
populated immediate child (re-rooting its subtree at that child), blank the
part's own slot list, then remove the part's joint and null its
`part_tree_root`. -/
def detachSever (fuel : Nat) (w : World) (part : Nat) : Except String World :=
  match (w.get part).bind EntityData.partChildren with
  | none => detachFinal w part
  | some slots =>
    match severChildren fuel w (slots.filterMap id) with
    | Except.error err => Except.error err
    | Except.ok w2 =>
      match w2.get part with
      | none => Except.error "panic: entity_mut on part"
      | some pe2 =>
        match pe2.partChildren with
        | none => Except.error "panic: PartChildren unwrap on part"
        | some slots2 =>
          detachFinal
            (w2.set part { pe2 with
              partChildren := some (slots2.map (fun _ => none)) })
            part

/-- `detach_part` (parts.rs lines 617-674): no-op on a nonexistent entity;
clear the first parent slot holding `part` (`unwrap` panic when the parent
entity is dangling); then run the severing and finalization tail. -/
def detach_part (fuel : Nat) (w : World) (part : Nat) : Except String World :=
  match w.get part with
  | none => Except.ok w
  | some e =>
    let step1 : Except String World :=
      match e.partParent with
      | none => Except.ok w
      | some parentId =>
        match w.get parentId with
        | none => Except.error "panic: unwrap on nonexistent parent"
        | some pe =>
          match pe.partChildren with
          | none => Except.ok w
          | some children =>
            match children.findIdx? (fun c => c == some part) with
            | none => Except.ok w
            | some idx =>
              Except.ok (w.set parentId { pe with
                partChildren := some (children.set idx none) })
    match step1 with
    | Except.error err => Except.error err
    | Except.ok w1 => detachSever fuel w1 part

/-- `despawn_part` (parts.rs lines 676-681): detach, then remove the
entity. -/
def despawn_part (fuel : Nat) (w : World) (part : Nat) : Except String World :=
  match detach_part fuel w part with
  | Except.error e => Except.error e
  | Except.ok w2 => Except.ok (w2.despawn part)

/-! ### Shape descriptions of part subtrees living in a world

To state what `detach_part` does to an arbitrary subtree, the subtree is
described by a rose tree of entity ids (`ETree`) and a predicate
(`Represents`) saying the world contains exactly that shape: every node is
present, its `PartChildren` populated slots list the child roots in order,
and it has no engine `Children`. -/

/-- A subtree shape: entity id plus child subtrees. -/
inductive ETree where
  | node : Nat → List ETree → ETree

/-- The id at the root of a shape. -/
def ETree.rootId : ETree → Nat
  | .node i _ => i

/-- The child shapes of a shape. -/
def ETree.children : ETree → List ETree
  | .node _ ts => ts

mutual

/-- Number of nodes in a shape. -/
def ETree.esize : ETree → Nat
  | .node _ ts => 1 + ETree.esizeList ts

/-- Number of nodes in a forest. -/
def ETree.esizeList : List ETree → Nat
  | [] => 0
  | t :: rest => t.esize + ETree.esizeList rest

end

mutual

/-- All ids in a shape, root first. -/
def ETree.nodes : ETree → List Nat
  | .node i ts => i :: ETree.nodesList ts

/-- All ids in a forest. -/
def ETree.nodesList : List ETree → List Nat
  | [] => []
  | t :: rest => t.nodes ++ ETree.nodesList rest

end

theorem esizeList_append (a b : List ETree) :
    ETree.esizeList (a ++ b) = ETree.esizeList a + ETree.esizeList b := by
  induction a with
  | nil => simp [ETree.esizeList]
  | cons t rest ih => simp [ETree.esizeList, ih, Nat.add_assoc]

theorem esizeList_reverse (l : List ETree) :
    ETree.esizeList l.reverse = ETree.esizeList l := by
  induction l with
  | nil => rfl
  | cons t rest ih =>
    simp [ETree.esizeList, esizeList_append, ih]
    omega

theorem esize_pos (t : ETree) : 1 ≤ t.esize := by
  cases t with
  | node i ts => simp [ETree.esize]

theorem nodesList_append (a b : List ETree) :
    ETree.nodesList (a ++ b) = ETree.nodesList a ++ ETree.nodesList b := by
  induction a with
  | nil => simp [ETree.nodesList]
  | cons t rest ih => simp [ETree.nodesList, ih]

theorem mem_nodesList_reverse (j : Nat) (l : List ETree) :
    j ∈ ETree.nodesList l.reverse ↔ j ∈ ETree.nodesList l := by
  induction l with
  | nil => simp
  | cons t rest ih =>
    simp only [List.reverse_cons, nodesList_append, ETree.nodesList,
      List.mem_append]
    rw [ih]
    simp [ETree.nodesList]
    tauto

theorem rootId_mem_nodes (t : ETree) : t.rootId ∈ t.nodes := by
  cases t with
  | node i ts => simp [ETree.rootId, ETree.nodes]

theorem mem_nodesList_of_mem (t : ETree) (ts : List ETree) (j : Nat)
    (ht : t ∈ ts) (hj : j ∈ t.nodes) : j ∈ ETree.nodesList ts := by
  induction ts with
  | nil => cases ht
  | cons u rest ih =>
    rcases List.mem_cons.mp ht with h | h
    · subst h
      simp [ETree.nodesList, hj]
    · simp [ETree.nodesList, ih h]

/-- The world `w` contains the subtree shape `t`: the root entity exists,
its `PartChildren` populated slots are exactly the child roots in order, it
has no engine `Children`, and the child shapes are contained recursively. -/
inductive Represents (w : World) : ETree → Prop where
  | node (i : Nat) (ts : List ETree) (e : EntityData) (sl : List (Option Nat))
      (hget : w.get i = some e)
      (hslots : e.partChildren = some sl)
      (hfilter : sl.filterMap id = ts.map ETree.rootId)
      (hbevy : e.bevyChildren = [])
      (hchildren : ∀ t ∈ ts, Represents w t) :
      Represents w (.node i ts)

/-- Two optional entity states agree on the fields the detach traversal
navigates by. -/
def structSame : Option EntityData → Option EntityData → Prop
  | none, none => True
  | some e1, some e2 =>
      e1.partChildren = e2.partChildren ∧ e1.bevyChildren = e2.bevyChildren
  | _, _ => False

theorem structSame_refl (a : Option EntityData) : structSame a a := by
  cases a with
  | none => trivial
  | some e => exact ⟨rfl, rfl⟩

/-- Containment of a shape survives any world change that preserves
navigation structure at the shape's nodes. -/
theorem represents_mono (w w' : World) (t : ETree)
    (hsame : ∀ j ∈ t.nodes, structSame (w.get j) (w'.get j))
    (h : Represents w t) : Represents w' t := by
  induction h with
  | node i ts e sl hget hslots hfilter hbevy hchildren ih =>
    have hi : i ∈ (ETree.node i ts).nodes := by
      simp [ETree.nodes]
    have := hsame i hi
    rw [hget] at this
    cases hget2 : w'.get i with
    | none => rw [hget2] at this; cases this
    | some e2 =>
      rw [hget2] at this
      obtain ⟨hpc, hbc⟩ := this
      refine Represents.node i ts e2 sl hget2 (hpc ▸ hslots) hfilter
        (hbc ▸ hbevy) ?_
      intro t ht
      refine ih t ht ?_
      intro j hj
      exact hsame j (by
        simp only [ETree.nodes]
        exact List.mem_cons_of_mem i (mem_nodesList_of_mem t ts j ht hj))

/-- The per-node effect of the detach traversal rooted at `rootId`
(parts.rs lines 650-659): ownership tags removed, `part_tree_root` pointed
at `rootId` and collision re-enabled when physics data is present. -/
def detachedUpdate (rootId : Nat) (e : EntityData) : EntityData :=
  { e with
    playerOwned := false,
    enemyOwned := false,
    customData := e.customData.map (fun c =>
      { c with part_tree_root := some rootId, disable_collision := false }) }

/-- The effect applied to a severed immediate child before its subtree is
traversed (parts.rs lines 641-644): parent link and joint removed, axes
locked. -/
def severUpdate (e : EntityData) : EntityData :=
  { e with
    partParent := none,
    impulseJoint := none,
    lockedAxes := some (TRANSLATION_LOCKED_Z + ROTATION_LOCKED) }

theorem detachedUpdate_idem (rootId : Nat) (e : EntityData) :
    detachedUpdate rootId (detachedUpdate rootId e) = detachedUpdate rootId e := by
  cases e with
  | mk cd pd pc pp ptr ij tp po eo bc la =>
    cases cd with
    | none => rfl
    | some c => rfl

theorem structSame_detachedUpdate (rootId : Nat) (e : EntityData) :
    structSame (some e) (some (detachedUpdate rootId e)) := by
  exact ⟨rfl, rfl⟩

theorem structSame_severUpdate (e : EntityData) :
    structSame (some e) (some (severUpdate e)) := by
  exact ⟨rfl, rfl⟩

/-- Correctness of the inner detach traversal on a represented forest: it
terminates with success, leaves every entity outside the forest untouched,
and applies `detachedUpdate rootId` to every node of the forest. -/
theorem detachTraverse_spec (rootId : Nat) :
    ∀ (fuel : Nat) (ts : List ETree) (w : World),
      (∀ t ∈ ts, Represents w t) →
      ETree.esizeList ts ≤ fuel →
      ∃ w', detachTraverse rootId fuel w (ts.map ETree.rootId) = Except.ok w' ∧
        (∀ j, j ∉ ETree.nodesList ts → w'.get j = w.get j) ∧
        (∀ j, j ∈ ETree.nodesList ts → ∃ e, w.get j = some e ∧
            w'.get j = some (detachedUpdate rootId e)) := by
  intro fuel
  induction fuel with
  | zero =>
    intro ts w hrep hsize
    cases ts with
    | nil =>
      refine ⟨w, rfl, ?_, ?_⟩
      · intro j hj
        rfl
      · intro j hj
        simp [ETree.nodesList] at hj
    | cons t rest =>
      exfalso
      have h1 := esize_pos t
      simp only [ETree.esizeList] at hsize
      omega
  | succ fuel ih =>
    intro ts w hrep hsize
    cases ts with
    | nil =>
      refine ⟨w, rfl, ?_, ?_⟩
      · intro j hj
        rfl
      · intro j hj
        simp [ETree.nodesList] at hj
    | cons t rest =>
      cases t with
      | node i cs =>
        have hr := hrep (ETree.node i cs) (List.mem_cons_self _ _)
        cases hr with
        | node _ _ e sl hget hslots hfilter hbevy hchildren =>
          have hstep : detachTraverse rootId (fuel + 1) w
              ((ETree.node i cs :: rest).map ETree.rootId)
              = detachTraverse rootId fuel
                  (w.set i (detachedUpdate rootId e))
                  (((cs.reverse ++ rest).map ETree.rootId)) := by
            simp only [List.map_cons, ETree.rootId, detachTraverse, hget,
              hslots, hbevy, hfilter]
            simp [detachedUpdate, List.map_append, List.map_reverse,
              hslots, hbevy]
          have hsame : ∀ j, structSame (w.get j)
              ((w.set i (detachedUpdate rootId e)).get j) := by
            intro j
            by_cases hji : j = i
            · subst hji
              rw [hget,
                World.get_set_self w j (detachedUpdate rootId e) (by simp [hget])]
              exact structSame_detachedUpdate rootId e
            · rw [World.get_set_ne w i (detachedUpdate rootId e) j hji]
              exact structSame_refl _
          have hrep2 : ∀ t ∈ cs.reverse ++ rest,
              Represents (w.set i (detachedUpdate rootId e)) t := by
            intro t ht
            rcases List.mem_append.mp ht with h | h
            · exact represents_mono w _ t (fun j _ => hsame j)
                (hchildren t (List.mem_reverse.mp h))
            · exact represents_mono w _ t (fun j _ => hsame j)
                (hrep t (List.mem_cons_of_mem _ h))
          have hsize2 : ETree.esizeList (cs.reverse ++ rest) ≤ fuel := by
            have h1 : ETree.esizeList (ETree.node i cs :: rest)
                = 1 + ETree.esizeList cs + ETree.esizeList rest := by
              simp only [ETree.esizeList, ETree.esize]
            rw [h1] at hsize
            rw [esizeList_append, esizeList_reverse]
            omega
          obtain ⟨w', heq, hout, hin⟩ :=
            ih (cs.reverse ++ rest) (w.set i (detachedUpdate rootId e))
              hrep2 hsize2
          have hmem_split : ∀ j, j ∈ ETree.nodesList (cs.reverse ++ rest)
              ↔ (j ∈ ETree.nodesList cs ∨ j ∈ ETree.nodesList rest) := by
            intro j
            rw [nodesList_append, List.mem_append, mem_nodesList_reverse]
          have hget_i : (w.set i (detachedUpdate rootId e)).get i
              = some (detachedUpdate rootId e) :=
            World.get_set_self w i _ (by simp [hget])
          refine ⟨w', hstep.trans heq, ?_, ?_⟩
          · intro j hj
            have hj2 : j ≠ i ∧ j ∉ ETree.nodesList cs
                ∧ j ∉ ETree.nodesList rest := by
              simp only [ETree.nodesList, ETree.nodes, List.mem_append,
                List.mem_cons] at hj
              tauto
            rw [hout j (by rw [hmem_split]; tauto),
              World.get_set_ne w i _ j hj2.1]
          · intro j hj
            simp only [ETree.nodesList, ETree.nodes, List.mem_append,
              List.mem_cons] at hj
            by_cases hji : j = i
            · subst hji
              by_cases hmem : j ∈ ETree.nodesList (cs.reverse ++ rest)
              · obtain ⟨e2, he2, he2f⟩ := hin j hmem
                rw [hget_i] at he2
                have : e2 = detachedUpdate rootId e := by
                  exact (Option.some_injective _ he2.symm)
                subst this
                exact ⟨e, hget, by rw [he2f, detachedUpdate_idem]⟩
              · exact ⟨e, hget, by rw [hout j hmem, hget_i]⟩
            · have hj3 : j ∈ ETree.nodesList cs ∨ j ∈ ETree.nodesList rest := by
                tauto
              obtain ⟨e2, he2, he2f⟩ := hin j ((hmem_split j).mpr hj3)
              rw [World.get_set_ne w i _ j hji] at he2
              exact ⟨e2, he2, he2f⟩

theorem structSame_trans (a b c : Option EntityData)
    (h1 : structSame a b) (h2 : structSame b c) : structSame a c := by
  cases a with
  | none =>
    cases b with
    | none => cases c with
      | none => trivial
      | some e3 => cases h2
    | some e2 => cases h1
  | some e1 =>
    cases b with
    | none => cases h1
    | some e2 =>
      cases c with
      | none => cases h2
      | some e3 => exact ⟨h1.1.trans h2.1, h1.2.trans h2.2⟩

/-- Correctness of the child-severing loop of `detach_part` on a
represented forest of immediate-child subtrees with pairwise-distinct
nodes: each listed child is severed (parent link and joint removed, axes
locked) and its whole subtree is re-rooted at that child with ownership
stripped and collision re-enabled; everything else is untouched. -/
theorem severChildren_spec :
    ∀ (ts : List ETree) (w : World) (fuel : Nat),
      (∀ t ∈ ts, Represents w t) →
      ETree.esizeList ts ≤ fuel →
      (ETree.nodesList ts).Nodup →
      ∃ w', severChildren fuel w (ts.map ETree.rootId) = Except.ok w' ∧
        (∀ j, j ∉ ETree.nodesList ts → w'.get j = w.get j) ∧
        (∀ t ∈ ts, ∃ e, w.get t.rootId = some e ∧
            w'.get t.rootId = some (detachedUpdate t.rootId (severUpdate e))) ∧
        (∀ t ∈ ts, ∀ j, j ∈ ETree.nodesList t.children →
            ∃ e, w.get j = some e ∧
              w'.get j = some (detachedUpdate t.rootId e)) := by
  intro ts
  induction ts with
  | nil =>
    intro w fuel hrep hsize hnodup
    refine ⟨w, rfl, ?_, ?_, ?_⟩
    · intro j hj
      rfl
    · intro t ht
      cases ht
    · intro t ht
      cases ht
  | cons t rest ih =>
    intro w fuel hrep hsize hnodup
    cases t with
    | node c cs =>
      have hr := hrep (ETree.node c cs) (List.mem_cons_self _ _)
      cases hr with
      | node _ _ e sl hget hslots hfilter hbevy hchildren =>
        have hnodes_head : (ETree.node c cs).nodes = c :: ETree.nodesList cs := by
          simp [ETree.nodes]
        have hsplit : ETree.nodesList (ETree.node c cs :: rest)
            = (c :: ETree.nodesList cs) ++ ETree.nodesList rest := by
          simp [ETree.nodesList, ETree.nodes]
        rw [hsplit] at hnodup
        obtain ⟨hnodup_head, hnodup_rest, hdisj⟩ := List.nodup_append.mp hnodup
        have hc_not_cs : c ∉ ETree.nodesList cs :=
          (List.nodup_cons.mp hnodup_head).1
        -- step 1: the sever update on the child root
        have hwa_get_c : (w.set c (severUpdate e)).get c = some (severUpdate e) :=
          World.get_set_self w c _ (by simp [hget])
        have hwa_same : ∀ j, structSame (w.get j)
            ((w.set c (severUpdate e)).get j) := by
          intro j
          by_cases hj : j = c
          · subst hj
            rw [hget, hwa_get_c]
            exact structSame_severUpdate e
          · rw [World.get_set_ne w c _ j hj]
            exact structSame_refl _
        have hrepa : Represents (w.set c (severUpdate e)) (ETree.node c cs) :=
          represents_mono w _ _ (fun j _ => hwa_same j)
            (hrep _ (List.mem_cons_self _ _))
        have hsize_head : ETree.esizeList [ETree.node c cs] ≤ fuel := by
          simp only [ETree.esizeList] at hsize ⊢
          have := esize_pos (ETree.node c cs)
          omega
        obtain ⟨wb, heqb, houtb, hinb⟩ :=
          detachTraverse_spec c fuel [ETree.node c cs]
            (w.set c (severUpdate e))
            (by
              intro u hu
              rcases List.mem_singleton.mp hu with rfl
              exact hrepa)
            hsize_head
        have hmap_single : ([ETree.node c cs].map ETree.rootId) = [c] := by
          simp [ETree.rootId]
        rw [hmap_single] at heqb
        have hnodes_single : ETree.nodesList [ETree.node c cs]
            = c :: ETree.nodesList cs := by
          simp [ETree.nodesList, ETree.nodes]
        -- after the traversal, values at the head subtree
        have hwb_c : wb.get c = some (detachedUpdate c (severUpdate e)) := by
          obtain ⟨e2, he2, he2f⟩ := hinb c (by rw [hnodes_single]; simp)
          rw [hwa_get_c] at he2
          cases he2
          exact he2f
        have hwb_desc : ∀ j, j ∈ ETree.nodesList cs →
            ∃ e2, w.get j = some e2 ∧ wb.get j = some (detachedUpdate c e2) := by
          intro j hj
          have hjc : j ≠ c := fun h => hc_not_cs (h ▸ hj)
          obtain ⟨e2, he2, he2f⟩ := hinb j (by rw [hnodes_single]; simp [hj])
          rw [World.get_set_ne w c _ j hjc] at he2
          exact ⟨e2, he2, he2f⟩
        have hwb_out : ∀ j, j ∉ (c :: ETree.nodesList cs) →
            wb.get j = w.get j := by
          intro j hj
          rw [houtb j (by rw [hnodes_single]; exact hj)]
          exact World.get_set_ne w c _ j (by
            intro h
            exact hj (h ▸ List.mem_cons_self _ _))
        -- feed the tail through the induction hypothesis
        have hsame_wb : ∀ j, structSame (w.get j) (wb.get j) := by
          intro j
          by_cases hj : j ∈ (c :: ETree.nodesList cs)
          · rcases List.mem_cons.mp hj with rfl | hj2
            · rw [hget, hwb_c]
              exact ⟨rfl, rfl⟩
            · obtain ⟨e2, he2, he2f⟩ := hwb_desc j hj2
              rw [he2, he2f]
              exact ⟨rfl, rfl⟩
          · rw [hwb_out j hj]
            exact structSame_refl _
        have hrep_rest : ∀ u ∈ rest, Represents wb u := by
          intro u hu
          exact represents_mono w _ _ (fun j _ => hsame_wb j)
            (hrep u (List.mem_cons_of_mem _ hu))
        have hsize_rest : ETree.esizeList rest ≤ fuel := by
          simp only [ETree.esizeList] at hsize
          have := esize_pos (ETree.node c cs)
          omega
        obtain ⟨w', heqc, houtc, hrootc, hdescc⟩ :=
          ih wb fuel hrep_rest hsize_rest hnodup_rest
        have hdisj2 : ∀ j, j ∈ (c :: ETree.nodesList cs) →
            j ∉ ETree.nodesList rest := by
          intro j hj
          exact hdisj hj
        -- assemble the step equation
        have hstep : severChildren fuel w
            ((ETree.node c cs :: rest).map ETree.rootId) = Except.ok w' := by
          simp only [List.map_cons, ETree.rootId, severChildren, hget]
          have hsever : ({ e with
              partParent := none,
              impulseJoint := none,
              lockedAxes := some (TRANSLATION_LOCKED_Z + ROTATION_LOCKED) }
              : EntityData) = severUpdate e := rfl
          rw [hsever, heqb]
          exact heqc
        refine ⟨w', hstep, ?_, ?_, ?_⟩
        · intro j hj
          rw [hsplit] at hj
          simp only [List.mem_append, List.mem_cons] at hj
          have hj1 : j ∉ (c :: ETree.nodesList cs) := by
            simp only [List.mem_cons]
            tauto
          have hj2 : j ∉ ETree.nodesList rest := by tauto
          rw [houtc j hj2, hwb_out j hj1]
        · intro u hu
          rcases List.mem_cons.mp hu with rfl | hu2
          · refine ⟨e, by simpa [ETree.rootId] using hget, ?_⟩
            have hcnotrest : (ETree.node c cs).rootId ∉ ETree.nodesList rest := by
              simp only [ETree.rootId]
              exact hdisj2 c (List.mem_cons_self _ _)
            rw [show (ETree.node c cs).rootId = c from rfl,
              houtc c (by simpa [ETree.rootId] using hcnotrest), hwb_c]
          · obtain ⟨e2, he2, he2f⟩ := hrootc u hu2
            refine ⟨e2, ?_, he2f⟩
            rw [← he2]
            have hmem : u.rootId ∈ ETree.nodesList rest :=
              mem_nodesList_of_mem u rest u.rootId hu2 (rootId_mem_nodes u)
            have : u.rootId ∉ (c :: ETree.nodesList cs) := by
              intro hcon
              exact hdisj2 u.rootId hcon hmem
            rw [hwb_out u.rootId this]
        · intro u hu j hj
          rcases List.mem_cons.mp hu with rfl | hu2
          · have hj2 : j ∈ ETree.nodesList cs := by
              simpa [ETree.children] using hj
            obtain ⟨e2, he2, he2f⟩ := hwb_desc j hj2
            refine ⟨e2, he2, ?_⟩
            have : j ∉ ETree.nodesList rest :=
              hdisj2 j (List.mem_cons_of_mem _ hj2)
            rw [houtc j this, he2f]
            simp [ETree.rootId]
          · obtain ⟨e2, he2, he2f⟩ := hdescc u hu2 j hj
            refine ⟨e2, ?_, he2f⟩
            rw [← he2]
            have hmem : j ∈ ETree.nodesList rest := by
              refine mem_nodesList_of_mem u rest j hu2 ?_
              cases u with
              | node uid uts =>
                simp only [ETree.children] at hj
                simp [ETree.nodes, hj]
            have : j ∉ (c :: ETree.nodesList cs) := by
              intro hcon
              exact hdisj2 j hcon hmem
            rw [hwb_out j this]

/-- Correctness of the severing and finalization tail of `detach_part` on
a part whose immediate children head the represented forest `ts`: the part
keeps its `PartParent` and `PartTreeRoot` components and its ownership tags,
its slot list is blanked, its joint removed and its `part_tree_root` set to
`none`; every child subtree is severed and re-rooted at its own child root;
every other entity is untouched. -/
theorem detachSever_spec (fuel : Nat) (w : World) (p : Nat) (ep : EntityData)
    (psl : List (Option Nat)) (ts : List ETree) (cp : CustomPhysicsData)
    (hget : w.get p = some ep)
    (hpsl : ep.partChildren = some psl)
    (hfilter : psl.filterMap id = ts.map ETree.rootId)
    (hrep : ∀ t ∈ ts, Represents w t)
    (hnodup : (ETree.nodesList ts).Nodup)
    (hpnot : p ∉ ETree.nodesList ts)
    (hcp : ep.customData = some cp)
    (hfuel : ETree.esizeList ts ≤ fuel) :
    ∃ w', detachSever fuel w p = Except.ok w' ∧
      w'.get p = some { ep with
        partChildren := some (psl.map (fun _ => none)),
        impulseJoint := none,
        customData := some { cp with part_tree_root := none } } ∧
      (∀ t ∈ ts, ∃ e, w.get t.rootId = some e ∧
          w'.get t.rootId = some (detachedUpdate t.rootId (severUpdate e))) ∧
      (∀ t ∈ ts, ∀ j, j ∈ ETree.nodesList t.children →
          ∃ e, w.get j = some e ∧
            w'.get j = some (detachedUpdate t.rootId e)) ∧
      (∀ j, j ≠ p → j ∉ ETree.nodesList ts → w'.get j = w.get j) := by
  obtain ⟨w2, heq2, hout2, hroot2, hdesc2⟩ :=
    severChildren_spec ts w fuel hrep hfuel hnodup
  have hw2p : w2.get p = some ep := by
    rw [hout2 p hpnot, hget]
  have hw3p : (w2.set p { ep with
      partChildren := some (psl.map (fun _ => none)) }).get p
      = some { ep with partChildren := some (psl.map (fun _ => none)) } :=
    World.get_set_self w2 p _ (by rw [hw2p]; rfl)
  have hstep : detachSever fuel w p
      = detachFinal (w2.set p { ep with
          partChildren := some (psl.map (fun _ => none)) }) p := by
    simp only [detachSever, hget, Option.bind, hpsl, hfilter, heq2, hw2p]
  have hfinal : detachFinal (w2.set p { ep with
      partChildren := some (psl.map (fun _ => none)) }) p
      = Except.ok ((w2.set p { ep with
          partChildren := some (psl.map (fun _ => none)) }).set p
        { ep with
          partChildren := some (psl.map (fun _ => none)),
          impulseJoint := none,
          customData := some { cp with part_tree_root := none } }) := by
    simp only [detachFinal]
    rw [hw3p]
    simp only [hcp]
  set w4 := ((w2.set p { ep with
      partChildren := some (psl.map (fun _ => none)) }).set p
    { ep with
      partChildren := some (psl.map (fun _ => none)),
      impulseJoint := none,
      customData := some { cp with part_tree_root := none } }) with hw4def
  have hw4p : w4.get p = some { ep with
      partChildren := some (psl.map (fun _ => none)),
      impulseJoint := none,
      customData := some { cp with part_tree_root := none } } := by
    rw [hw4def]
    exact World.get_set_self _ p _ (by rw [hw3p]; rfl)
  have hw4other : ∀ j, j ≠ p → w4.get j = w2.get j := by
    intro j hj
    rw [hw4def, World.get_set_ne _ p _ j hj, World.get_set_ne _ p _ j hj]
  refine ⟨w4, hstep.trans hfinal, hw4p, ?_, ?_, ?_⟩
  · intro t ht
    obtain ⟨e, he, hef⟩ := hroot2 t ht
    refine ⟨e, he, ?_⟩
    have hne : t.rootId ≠ p := by
      intro h
      exact hpnot (h ▸ mem_nodesList_of_mem t ts t.rootId ht (rootId_mem_nodes t))
    rw [hw4other t.rootId hne]
    exact hef
  · intro t ht j hj
    obtain ⟨e, he, hef⟩ := hdesc2 t ht j hj
    refine ⟨e, he, ?_⟩
    have hjmem : j ∈ ETree.nodesList ts := by
      refine mem_nodesList_of_mem t ts j ht ?_
      cases t with
      | node tid tts =>
        simp only [ETree.children] at hj
        simp [ETree.nodes, hj]
    have hne : j ≠ p := by
      intro h
      exact hpnot (h ▸ hjmem)
    rw [hw4other j hne]
    exact hef
  · intro j hjp hjts
    rw [hw4other j hjp, hout2 j hjts]

/-! ### Entry-guard and panic behaviour of the attach/detach commands -/

theorem attach_noop_nonexistent_parent (w : World) (parent part i : Nat)
    (h : w.get parent = none) : attach_part w parent part i = Except.ok w := by
  simp [attach_part, h]

theorem attach_noop_parent_without_physics (w : World) (parent part i : Nat)
    (pe : EntityData) (h1 : w.get parent = some pe)
    (h2 : pe.customData = none) :
    attach_part w parent part i = Except.ok w := by
  simp [attach_part, h1, h2]

theorem attach_noop_parent_not_part (w : World) (parent part i : Nat)
    (pe : EntityData) (pcd : CustomPhysicsData)
    (h1 : w.get parent = some pe) (h2 : pe.customData = some pcd)
    (h3 : pe.partDef = none) :
    attach_part w parent part i = Except.ok w := by
  simp [attach_part, h1, h2, h3]

theorem attach_noop_invalid_hardpoint (w : World) (parent part i : Nat)
    (pe : EntityData) (pcd : CustomPhysicsData) (pdef : PartDef)
    (h1 : w.get parent = some pe) (h2 : pe.customData = some pcd)
    (h3 : pe.partDef = some pdef)
    (h4 : pdef.hardpoints[i]? = none) :
    attach_part w parent part i = Except.ok w := by
  simp [attach_part, h1, h2, h3, h4]

theorem attach_panic_dangling_child (w : World) (parent part i : Nat)
    (pe : EntityData) (pcd : CustomPhysicsData) (pdef : PartDef)
    (hp0 : Hardpoint)
    (h1 : w.get parent = some pe) (h2 : pe.customData = some pcd)
    (h3 : pe.partDef = some pdef)
    (h4 : pdef.hardpoints[i]? = some hp0)
    (h5 : pe.transformPresent = true)
    (h6 : w.get part = none) :
    attach_part w parent part i
      = Except.error "panic: entity_mut on nonexistent part" := by
  simp [attach_part, h1, h2, h3, h4, h5, h6]

theorem attach_panic_child_without_physics (w : World) (parent part i : Nat)
    (pe ce : EntityData) (pcd : CustomPhysicsData) (pdef : PartDef)
    (hp0 : Hardpoint)
    (h1 : w.get parent = some pe) (h2 : pe.customData = some pcd)
    (h3 : pe.partDef = some pdef)
    (h4 : pdef.hardpoints[i]? = some hp0)
    (h5 : pe.transformPresent = true)
    (h6 : w.get part = some ce)
    (h7 : ce.customData = none) :
    attach_part w parent part i
      = Except.error "panic: CustomPhysicsData unwrap on part" := by
  simp [attach_part, h1, h2, h3, h4, h5, h6, h7]

theorem attach_panic_parent_without_transform (w : World)
    (parent part i : Nat)
    (pe : EntityData) (pcd : CustomPhysicsData) (pdef : PartDef)
    (hp0 : Hardpoint)
    (h1 : w.get parent = some pe) (h2 : pe.customData = some pcd)
    (h3 : pe.partDef = some pdef)
    (h4 : pdef.hardpoints[i]? = some hp0)
    (h5 : pe.transformPresent = false) :
    attach_part w parent part i
      = Except.error "panic: Transform unwrap on parent" := by
  simp [attach_part, h1, h2, h3, h4, h5]

theorem detach_noop_nonexistent_part (fuel : Nat) (w : World) (part : Nat)
    (h : w.get part = none) : detach_part fuel w part = Except.ok w := by
  simp [detach_part, h]

theorem detach_panic_dangling_parent (fuel : Nat) (w : World) (part : Nat)
    (e : EntityData) (pid : Nat)
    (h1 : w.get part = some e) (h2 : e.partParent = some pid)
    (h3 : w.get pid = none) :
    detach_part fuel w part
      = Except.error "panic: unwrap on nonexistent parent" := by
  simp [detach_part, h1, h2, h3]

/-- The intermediate child components written by the propagation loop of a
successful attach (ownership tag and tree root copied from the parent). -/
def attachedChildMid (pe ce : EntityData) (pcd ccd : CustomPhysicsData) :
    EntityData :=
  { ce with
    playerOwned := ce.playerOwned
      || ((if pe.playerOwned then (1 : Nat) else if pe.enemyOwned then 2 else 0)
          == 1),
    enemyOwned := ce.enemyOwned
      || ((if pe.playerOwned then (1 : Nat) else if pe.enemyOwned then 2 else 0)
          == 2),
    customData := some { ccd with part_tree_root := pcd.part_tree_root } }

/-- The final child components written by a successful attach: the
intermediate update plus transform, joint, parent link, locked axes, and
removal of the root aggregate. -/
def attachedChildEntity (pe ce : EntityData) (pcd ccd : CustomPhysicsData)
    (parent : Nat) : EntityData :=
  { attachedChildMid pe ce pcd ccd with
    transformPresent := true,
    impulseJoint := some parent,
    partParent := some parent,
    lockedAxes := some TRANSLATION_LOCKED_Z,
    partTreeRoot := none }

/-- Successful `attach_part`: when the parent-side guards pass and the child
entity carries its expected components, the command succeeds, writes the
child into slot `i` of the parent regardless of the slot's previous
contents, and installs parent link, joint, transform, tree root and
ownership on the child. -/
theorem attach_spec_success (w : World) (parent part i : Nat)
    (pe ce : EntityData) (pcd ccd : CustomPhysicsData) (pdef cdef : PartDef)
    (hp0 : Hardpoint) (ch : List (Option Nat)) (slot0 : Option Nat)
    (h1 : w.get parent = some pe) (h2 : pe.customData = some pcd)
    (h3 : pe.partDef = some pdef)
    (h4 : pdef.hardpoints[i]? = some hp0)
    (h5 : pe.transformPresent = true)
    (h6 : w.get part = some ce)
    (h7 : ce.customData = some ccd)
    (h8 : ce.partDef = some cdef)
    (h9 : pe.partChildren = some ch)
    (h10 : ch[i]? = some slot0)
    (hne : part ≠ parent) :
    ∃ w', attach_part w parent part i = Except.ok w' ∧
      w'.get parent = some { pe with
        partChildren := some (ch.set i (some part)) } ∧
      w'.get part = some (attachedChildEntity pe ce pcd ccd parent) ∧
      (∀ j, j ≠ parent → j ≠ part → w'.get j = w.get j) := by
  have hnc : ¬(pe.transformPresent = false) := by
    rw [h5]
    decide
  have hpne : parent ≠ part := fun hq => hne hq.symm
  have hmid7 : (attachedChildMid pe ce pcd ccd).customData
      = some { ccd with part_tree_root := pcd.part_tree_root } := rfl
  have hmid8 : (attachedChildMid pe ce pcd ccd).partDef = some cdef := h8
  have hget_mid : (w.set part (attachedChildMid pe ce pcd ccd)).get part
      = some (attachedChildMid pe ce pcd ccd) :=
    World.get_set_self w part _ (by rw [h6]; rfl)
  have hget_fin : ((w.set part (attachedChildMid pe ce pcd ccd)).set part
      (attachedChildEntity pe ce pcd ccd parent)).get part
      = some (attachedChildEntity pe ce pcd ccd parent) :=
    World.get_set_self _ part _ (by rw [hget_mid]; rfl)
  have hget_parent2 : ((w.set part (attachedChildMid pe ce pcd ccd)).set part
      (attachedChildEntity pe ce pcd ccd parent)).get parent = some pe := by
    rw [World.get_set_ne _ part _ parent hpne,
      World.get_set_ne _ part _ parent hpne, h1]
  refine ⟨((w.set part (attachedChildMid pe ce pcd ccd)).set part
      (attachedChildEntity pe ce pcd ccd parent)).set parent
      { pe with partChildren := some (ch.set i (some part)) },
    ?_, ?_, ?_, ?_⟩
  · simp only [attach_part, h1, h2, h3, h4, h6, h7, if_neg hnc]
    simp only [attachedChildEntity, attachedChildMid, h8]
    rw [World.get_set_ne _ part _ parent hpne,
      World.get_set_ne _ part _ parent hpne, h1]
    simp only [h9, h10, h2, h3]
  · exact World.get_set_self _ parent _ (by rw [hget_parent2]; rfl)
  · rw [World.get_set_ne _ parent _ part hne, hget_fin]
  · intro j hjparent hjpart
    rw [World.get_set_ne _ parent _ j hjparent,
      World.get_set_ne _ part _ j hjpart,
      World.get_set_ne _ part _ j hjpart]

/-! ### Claim theorems -/

/-- Stats of the example chassis (hp 10). -/
def exampleChassis : PartStats :=
  { hp := 10, speed := none, acceleration := none, force := none }

/-- Stats of the example leg (speed +10). -/
def exampleLeg : PartStats :=
  { hp := 0, speed := some 10, acceleration := none, force := none }

/-- Stats of the example head (hp +5). -/
def exampleHead : PartStats :=
  { hp := 5, speed := none, acceleration := none, force := none }

/-- Chassis with five hardpoints: four legs and one head. -/
def exampleTree : PartTree :=
  .node exampleChassis
    [ some (.node exampleLeg []), some (.node exampleLeg [])
    , some (.node exampleLeg []), some (.node exampleLeg [])
    , some (.node exampleHead []) ]

/-- C6: the per-tick per-root aggregation resets the cumulative stats and
sums the stats of every part in the live subtree by an explicit-stack
depth-first walk, so the aggregate is the component-wise sum with absent
optional fields counted as zero; in particular a chassis hp 10 with four
legs of speed +10 and a head of hp +5 aggregates to hp 15, speed 40,
acceleration 0, force 0. -/
theorem C6_stat_aggregation :
    (∀ t : PartTree,
      accumulate_part_stats t
        = { hp := hpTotal t.flatten % U32_MOD
          , speed := some (speedTotal t.flatten)
          , acceleration := some (accelTotal t.flatten)
          , force := some (forceTotal t.flatten) }
      ∧ (hpTotal t.flatten < U32_MOD →
          (accumulate_part_stats t).hp = hpTotal t.flatten))
    ∧ accumulate_part_stats exampleTree
        = { hp := 15, speed := some 40, acceleration := some 0
          , force := some 0 } := by
  constructor
  · intro t
    refine ⟨accumulate_part_stats_eq t, ?_⟩
    intro hlt
    rw [accumulate_part_stats_eq t]
    exact Nat.mod_eq_of_lt hlt
  · rw [accumulate_part_stats_eq exampleTree]
    simp [exampleTree, PartTree.flatten, PartTree.flattenSlots, hpTotal,
      speedTotal, accelTotal, forceTotal, exampleChassis, exampleLeg,
      exampleHead, U32_MOD]
    norm_num

/-- Witness for C6 at the example tree: its hp total is below `2 ^ 32`, so
the aggregate hp equals the exact subtree sum. -/
theorem C6_stat_aggregation_witness :
    (accumulate_part_stats exampleTree).hp = hpTotal exampleTree.flatten :=
  (C6_stat_aggregation.1 exampleTree).2 (by
    simp [exampleTree, PartTree.flatten, PartTree.flattenSlots, hpTotal,
      exampleChassis, exampleLeg, exampleHead, U32_MOD])

/-- C7: stat aggregation is order-independent — any shuffling of the
traversal order of siblings (anywhere in the tree) yields the same
cumulative stats. -/
theorem C7_aggregation_order_independent (t u : PartTree) (h : TreePerm t u) :
    accumulate_part_stats t = accumulate_part_stats u := by
  have hperm := treePerm_flatten_perm t u h
  rw [accumulate_part_stats_eq t, accumulate_part_stats_eq u,
    hpTotal_perm _ _ hperm, speedTotal_perm _ _ hperm,
    accelTotal_perm _ _ hperm, forceTotal_perm _ _ hperm]

/-- Witness for C7: swapping the two children of a small tree leaves the
aggregate unchanged. -/
theorem C7_aggregation_order_independent_witness :
    accumulate_part_stats (.node exampleChassis
        [some (.node exampleLeg []), some (.node exampleHead [])])
      = accumulate_part_stats (.node exampleChassis
        [some (.node exampleHead []), some (.node exampleLeg [])]) :=
  C7_aggregation_order_independent _ _
    (TreePerm.node exampleChassis _ _
      (SlotsPerm.swap (some (.node exampleLeg []))
        (some (.node exampleHead [])) []))

/-- C8: the contact filter returns "skip this contact" exactly when the two
colliders record the same tree root or at least one of them has collision
disabled; in every other case it explicitly returns full collision. -/
theorem C8_contact_filter (d1 d2 : CustomPhysicsData) :
    (filter_contact_pair (some d1) (some d2) = none
      ↔ (d1.part_tree_root = d2.part_tree_root
          ∨ d1.disable_collision = true ∨ d2.disable_collision = true))
    ∧ (¬(d1.part_tree_root = d2.part_tree_root
          ∨ d1.disable_collision = true ∨ d2.disable_collision = true) →
        filter_contact_pair (some d1) (some d2) = some SolverFlags.all) := by
  by_cases h1 : d1.part_tree_root = d2.part_tree_root
  · simp [filter_contact_pair, h1]
  · by_cases h2 : d1.disable_collision = true
    · simp [filter_contact_pair, h1, h2]
    · by_cases h3 : d2.disable_collision = true
      · simp [filter_contact_pair, h1, h2, h3]
      · simp [filter_contact_pair, h1, h2, h3]

/-- Witness for C8: two different-rooted colliders with collision enabled
get full collision. -/
theorem C8_contact_filter_witness :
    filter_contact_pair
        (some { part_tree_root := some 1, disable_collision := false })
        (some { part_tree_root := some 2, disable_collision := false })
      = some SolverFlags.all :=
  (C8_contact_filter
    { part_tree_root := some 1, disable_collision := false }
    { part_tree_root := some 2, disable_collision := false }).2 (by decide)

/-- C9: on a projectile-part collision the projectile is destroyed, hp is
reduced by the damage saturating at zero, and the part is despawned exactly
when the hp reaches zero; hp 20 hit for 12 leaves 8 and no despawn, hp 8
hit for 12 leaves 0 and triggers despawn. -/
theorem C9_projectile_hit :
    (∀ hp damage : Nat,
      (apply_projectile_hit hp damage).projectile_despawned = true
      ∧ (apply_projectile_hit hp damage).hp = hp - damage
      ∧ ((apply_projectile_hit hp damage).part_despawned = true ↔ hp ≤ damage)
      ∧ (hp ≤ damage → (apply_projectile_hit hp damage).hp = 0))
    ∧ apply_projectile_hit 20 12
        = { projectile_despawned := true, hp := 8, part_despawned := false }
    ∧ apply_projectile_hit 8 12
        = { projectile_despawned := true, hp := 0, part_despawned := true } := by
  refine ⟨?_, by decide, by decide⟩
  intro hp damage
  refine ⟨rfl, rfl, ?_, ?_⟩
  · simp [apply_projectile_hit, Nat.sub_eq_zero_iff_le]
  · intro h
    simp [apply_projectile_hit, Nat.sub_eq_zero_of_le h]

/-- Witness for C9: a 12-damage hit on an 8-hp part saturates to zero. -/
theorem C9_projectile_hit_witness :
    (apply_projectile_hit 8 12).hp = 0 :=
  (C9_projectile_hit.1 8 12).2.2.2 (by decide)

/-- C10: when both colliders resolve (after the missing-component fallback)
to no tree root, the equality test on the two `none` roots succeeds and the
filter suppresses the contact — two detached parts never collide. -/
theorem C10_filter_both_none (d1 d2 : Option CustomPhysicsData)
    (h1 : (d1.getD CustomPhysicsData.fallback).part_tree_root = none)
    (h2 : (d2.getD CustomPhysicsData.fallback).part_tree_root = none) :
    filter_contact_pair d1 d2 = none := by
  simp [filter_contact_pair, h1, h2]

/-- Witness for C10: two detached parts (both roots `none`). -/
theorem C10_filter_both_none_witness :
    filter_contact_pair
        (some { part_tree_root := none, disable_collision := false })
        (some { part_tree_root := none, disable_collision := false })
      = none :=
  C10_filter_both_none _ _ (by decide) (by decide)

/-! ### Concrete worlds for the attach/detach claims -/

/-- An entity with no components or tags. -/
def emptyEntity : EntityData :=
  { customData := none, partDef := none, partChildren := none,
    partParent := none, partTreeRoot := none, impulseJoint := none,
    transformPresent := false, playerOwned := false, enemyOwned := false,
    bevyChildren := [], lockedAxes := none }

/-- A sample hardpoint. -/
def sampleHardpoint : Hardpoint :=
  { position := (0, 0), direction := (0, 1), order := Order.above }

/-- A sample part definition with `n` hardpoints. -/
def sampleDef (n : Nat) : PartDef :=
  { name := "part", origin := (0, 0), direction := (0, 1),
    stay_upright := none, chassis := none,
    stats := PartStats.defaultStats,
    hardpoints := List.replicate n sampleHardpoint }

/-- The recorded tree root of entity `id` after a command; `none` when the
command panicked or the entity or its physics data is missing. -/
def rootAfter (r : Except String World) (id : Nat) : Option (Option Nat) :=
  match r with
  | Except.error _ => none
  | Except.ok w =>
      ((w.get id).bind EntityData.customData).map CustomPhysicsData.part_tree_root

/-- Whether entity `id` carries the player ownership tag after a command. -/
def playerOwnedAfter (r : Except String World) (id : Nat) : Option Bool :=
  match r with
  | Except.error _ => none
  | Except.ok w => (w.get id).map EntityData.playerOwned

/-- The `PartChildren` slots of entity `id` after a command. -/
def childrenAfter (r : Except String World) (id : Nat) :
    Option (List (Option Nat)) :=
  match r with
  | Except.error _ => none
  | Except.ok w => (w.get id).bind EntityData.partChildren

/-- The `PartParent` back pointer of entity `id` after a command. -/
def parentAfter (r : Except String World) (id : Nat) : Option (Option Nat) :=
  match r with
  | Except.error _ => none
  | Except.ok w => (w.get id).map EntityData.partParent

/-- The root-aggregate component of entity `id` after a command. -/
def aggregateAfter (r : Except String World) (id : Nat) :
    Option (Option PartStats) :=
  match r with
  | Except.error _ => none
  | Except.ok w => (w.get id).map EntityData.partTreeRoot

/-- Player-owned root 1 with one free hardpoint, ready to receive the
detached branch 2 whose subtree contains leaf 3. -/
def parentEntityA : EntityData :=
  { emptyEntity with
    customData := some ⟨some 1, false⟩,
    partDef := some (sampleDef 1),
    partChildren := some [none],
    partTreeRoot := some PartStats.defaultStats,
    transformPresent := true,
    playerOwned := true }

/-- Branch root 2 (detached, its own tree root) with child 3. -/
def branchEntityA : EntityData :=
  { emptyEntity with
    customData := some ⟨some 2, false⟩,
    partDef := some (sampleDef 1),
    partChildren := some [some 3],
    partTreeRoot := some PartStats.defaultStats }

/-- Leaf 3, attached under branch 2. -/
def leafEntityA : EntityData :=
  { emptyEntity with
    customData := some ⟨some 2, false⟩,
    partDef := some (sampleDef 0),
    partChildren := some [],
    partParent := some 2,
    impulseJoint := some 2 }

/-- World for claim C1: re-attaching a two-part branch. -/
def attachWorldA : World :=
  [(1, parentEntityA), (2, branchEntityA), (3, leafEntityA)]

/-- Valid parent 1 whose only hardpoint slot is already occupied by 3. -/
def parentEntityB : EntityData :=
  { emptyEntity with
    customData := some ⟨some 1, false⟩,
    partDef := some (sampleDef 1),
    partChildren := some [some 3],
    partTreeRoot := some PartStats.defaultStats,
    transformPresent := true }

/-- Fresh part 2 to be attached into the occupied slot. -/
def childEntityB : EntityData :=
  { emptyEntity with
    customData := some ⟨some 2, false⟩,
    partDef := some (sampleDef 0),
    partChildren := some [] }

/-- Occupant 3 currently filling the parent slot. -/
def occupantEntityB : EntityData :=
  { emptyEntity with
    customData := some ⟨some 1, false⟩,
    partDef := some (sampleDef 0),
    partChildren := some [],
    partParent := some 1,
    impulseJoint := some 1 }

/-- World for claims C3/C4: a valid parent with an occupied slot. -/
def attachWorldB : World :=
  [(1, parentEntityB), (2, childEntityB), (3, occupantEntityB)]

/-- Player-owned root 1 of the chain 1 - 2 - 3. -/
def rootEntityC : EntityData :=
  { emptyEntity with
    customData := some ⟨some 1, false⟩,
    partChildren := some [some 2],
    partTreeRoot := some PartStats.defaultStats,
    playerOwned := true }

/-- Middle part 2 of the chain, child of 1, parent of 3. -/
def midEntityC : EntityData :=
  { emptyEntity with
    customData := some ⟨some 1, false⟩,
    partChildren := some [some 3],
    partParent := some 1,
    impulseJoint := some 1,
    playerOwned := true }

/-- Leaf 3 of the chain, child of 2. -/
def leafEntityC : EntityData :=
  { emptyEntity with
    customData := some ⟨some 1, false⟩,
    partChildren := some [],
    partParent := some 2,
    impulseJoint := some 2,
    playerOwned := true }

/-- World for claim C2: the chain 1 - 2 - 3, detaching the middle part. -/
def detachWorldC : World :=
  [(1, rootEntityC), (2, midEntityC), (3, leafEntityC)]

/-- Root 1 with a single attached child 2 (for claim C5). -/
def rootEntityD : EntityData :=
  { emptyEntity with
    customData := some ⟨some 1, false⟩,
    partChildren := some [some 2],
    partTreeRoot := some PartStats.defaultStats }

/-- Child 2 attached under root 1 (for claim C5). -/
def childEntityD : EntityData :=
  { emptyEntity with
    customData := some ⟨some 1, false⟩,
    partChildren := some [],
    partParent := some 1,
    impulseJoint := some 1 }

/-- World for claim C5: detaching the parentless root 1. -/
def detachWorldD : World :=
  [(1, rootEntityD), (2, childEntityD)]

/-- C1 (code bug): attaching branch 2 (which carries descendant 3) onto
parent 1 updates the tree root and ownership tag of 2 only; the propagation
loop (parts.rs 564-576) pushes no children, so descendant 3 keeps its stale
tree root `some 2` instead of parent 1's root and receives no ownership
tag, contrary to the claimed whole-subtree propagation. -/
theorem C1_attach_leaves_descendants_stale :
    rootAfter (attach_part attachWorldA 1 2 0) 2 = some (some 1)
    ∧ playerOwnedAfter (attach_part attachWorldA 1 2 0) 2 = some true
    ∧ rootAfter (attach_part attachWorldA 1 2 0) 3 = some (some 2)
    ∧ playerOwnedAfter (attach_part attachWorldA 1 2 0) 3 = some false
    ∧ ((some (some 2) : Option (Option Nat)) ≠ some (some 1)) := by
  decide

/-- Counterexample for C2: detaching middle part 2 of the chain 1 - 2 - 3
re-roots grandchild 3 at itself (`some 3`, not at part 2), blanks part 2's
own slot list (the subtree does not stay connected under 2), sets part 2's
tree root to `none` (not to itself), installs no root aggregate on 2, and
leaves 2's ownership tag and parent link in place. -/
theorem C2_counterexample :
    rootAfter (detach_part 10 detachWorldC 2) 3 = some (some 3)
    ∧ ((some (some 3) : Option (Option Nat)) ≠ some (some 2))
    ∧ childrenAfter (detach_part 10 detachWorldC 2) 2 = some [none]
    ∧ rootAfter (detach_part 10 detachWorldC 2) 2 = some none
    ∧ ((some none : Option (Option Nat)) ≠ some (some 2))
    ∧ aggregateAfter (detach_part 10 detachWorldC 2) 2 = some none
    ∧ playerOwnedAfter (detach_part 10 detachWorldC 2) 2 = some true
    ∧ parentAfter (detach_part 10 detachWorldC 2) 2 = some (some 1)
    ∧ childrenAfter (detach_part 10 detachWorldC 2) 1 = some [none] := by
  decide

/-- C2 (amended): detaching a part with a parent removes the part's joint
and clears the parent slot that held it, but severs every immediate child:
each child subtree is re-rooted at that child (ownership stripped,
collision re-enabled), the part's slot list is blanked, its tree root
becomes `none`, and its parent link, ownership tags and (absent) root
aggregate are left as they were. -/
theorem C2_detach_severs_children
    (fuel : Nat) (w : World) (p q : Nat) (ep eq0 : EntityData)
    (qsl psl : List (Option Nat)) (k : Nat) (ts : List ETree)
    (cp : CustomPhysicsData)
    (hp : w.get p = some ep)
    (hparent : ep.partParent = some q)
    (hq : w.get q = some eq0)
    (hqp : q ≠ p)
    (hqsl : eq0.partChildren = some qsl)
    (hidx : qsl.findIdx? (fun c => c == some p) = some k)
    (hpsl : ep.partChildren = some psl)
    (hfilter : psl.filterMap id = ts.map ETree.rootId)
    (hrep : ∀ t ∈ ts, Represents w t)
    (hnodup : (ETree.nodesList ts).Nodup)
    (hpnot : p ∉ ETree.nodesList ts)
    (hqnot : q ∉ ETree.nodesList ts)
    (hcp : ep.customData = some cp)
    (hfuel : ETree.esizeList ts ≤ fuel) :
    ∃ w', detach_part fuel w p = Except.ok w' ∧
      w'.get q = some { eq0 with partChildren := some (qsl.set k none) } ∧
      w'.get p = some { ep with
        partChildren := some (psl.map (fun _ => none)),
        impulseJoint := none,
        customData := some { cp with part_tree_root := none } } ∧
      (∀ t ∈ ts, ∃ e, w.get t.rootId = some e ∧
          w'.get t.rootId = some (detachedUpdate t.rootId (severUpdate e))) ∧
      (∀ t ∈ ts, ∀ j, j ∈ ETree.nodesList t.children →
          ∃ e, w.get j = some e ∧
            w'.get j = some (detachedUpdate t.rootId e)) ∧
      (∀ j, j ≠ p → j ≠ q → j ∉ ETree.nodesList ts → w'.get j = w.get j) := by
  set w1 := w.set q { eq0 with partChildren := some (qsl.set k none) }
    with hw1def
  have hstep1 : detach_part fuel w p = detachSever fuel w1 p := by
    simp only [detach_part, hp, hparent, hq, hqsl, hidx, ← hw1def]
  have hw1p : w1.get p = some ep := by
    rw [hw1def, World.get_set_ne w q _ p (Ne.symm hqp), hp]
  have hw1q : w1.get q
      = some { eq0 with partChildren := some (qsl.set k none) } := by
    rw [hw1def]
    exact World.get_set_self w q _ (by rw [hq]; rfl)
  have hw1other : ∀ j, j ≠ q → w1.get j = w.get j := by
    intro j hj
    rw [hw1def, World.get_set_ne w q _ j hj]
  have hrep1 : ∀ t ∈ ts, Represents w1 t := by
    intro t ht
    refine represents_mono w w1 t ?_ (hrep t ht)
    intro j hj
    have hjq : j ≠ q := by
      intro hcon
      exact hqnot (hcon ▸ mem_nodesList_of_mem t ts j ht hj)
    rw [hw1other j hjq]
    exact structSame_refl _
  obtain ⟨w', heq, hpfin, hroots, hdescs, hout⟩ :=
    detachSever_spec fuel w1 p ep psl ts cp hw1p hpsl hfilter hrep1
      hnodup hpnot hcp hfuel
  refine ⟨w', hstep1.trans heq, ?_, hpfin, ?_, ?_, ?_⟩
  · rw [hout q hqp hqnot, hw1q]
  · intro t ht
    obtain ⟨e, he, hef⟩ := hroots t ht
    have hne : t.rootId ≠ q := fun hc =>
      hqnot (hc ▸ mem_nodesList_of_mem t ts _ ht (rootId_mem_nodes t))
    rw [hw1other t.rootId hne] at he
    exact ⟨e, he, hef⟩
  · intro t ht j hj
    obtain ⟨e, he, hef⟩ := hdescs t ht j hj
    have hjmem : j ∈ ETree.nodesList ts := by
      refine mem_nodesList_of_mem t ts j ht ?_
      cases t with
      | node tid tts =>
        simp only [ETree.children] at hj
        simp [ETree.nodes, hj]
    have hne : j ≠ q := fun hc => hqnot (hc ▸ hjmem)
    rw [hw1other j hne] at he
    exact ⟨e, he, hef⟩
  · intro j hjp hjq hjts
    rw [hout j hjp hjts, hw1other j hjq]

/-- Witness for C2 on the chain 1 - 2 - 3: detaching part 2 succeeds. -/
theorem C2_detach_severs_children_witness :
    ∃ w', detach_part 10 detachWorldC 2 = Except.ok w' := by
  obtain ⟨w', heq, _⟩ :=
    C2_detach_severs_children 10 detachWorldC 2 1 midEntityC rootEntityC
      [some 2] [some 3] 0 [ETree.node 3 []] ⟨some 1, false⟩
      (by decide) (by decide) (by decide) (by decide) (by decide) (by decide)
      (by decide) (by decide)
      (by
        intro t ht
        rw [List.mem_singleton] at ht
        subst ht
        exact Represents.node 3 [] leafEntityC [] (by decide) (by decide)
          (by decide) (by decide) (by intro u hu; cases hu))
      (by simp [ETree.nodesList, ETree.nodes])
      (by simp [ETree.nodesList, ETree.nodes])
      (by simp [ETree.nodesList, ETree.nodes])
      (by decide)
      (by norm_num [ETree.esizeList, ETree.esize])
  exact ⟨w', heq⟩

/-- Counterexample for C3: a structural precondition violation (a dangling
child entity reference, entity 99) during attach is fatal — the command
panics instead of aborting as a logged no-op. -/
theorem C3_counterexample :
    attach_part attachWorldB 1 99 0
      = Except.error "panic: entity_mut on nonexistent part" := by
  decide

/-- C3 (amended): only the entry-guard violations (nonexistent parent,
parent without physics data, parent without a part definition,
out-of-range hardpoint index in attach; nonexistent part in detach) abort
as logged no-ops; a dangling child entity or a child without physics data
in attach, and a dangling parent reference in detach, panic (fatal). -/
theorem C3_error_handling_split (w : World) (parent part i fuel : Nat) :
    (w.get parent = none → attach_part w parent part i = Except.ok w)
    ∧ (∀ pe : EntityData, w.get parent = some pe → pe.customData = none →
        attach_part w parent part i = Except.ok w)
    ∧ (∀ (pe : EntityData) (pcd : CustomPhysicsData),
        w.get parent = some pe → pe.customData = some pcd →
        pe.partDef = none → attach_part w parent part i = Except.ok w)
    ∧ (∀ (pe : EntityData) (pcd : CustomPhysicsData) (pdef : PartDef),
        w.get parent = some pe → pe.customData = some pcd →
        pe.partDef = some pdef → pdef.hardpoints[i]? = none →
        attach_part w parent part i = Except.ok w)
    ∧ (∀ (pe : EntityData) (pcd : CustomPhysicsData) (pdef : PartDef)
        (hp0 : Hardpoint),
        w.get parent = some pe → pe.customData = some pcd →
        pe.partDef = some pdef → pdef.hardpoints[i]? = some hp0 →
        pe.transformPresent = true → w.get part = none →
        ∃ msg, attach_part w parent part i = Except.error msg)
    ∧ (∀ (pe ce : EntityData) (pcd : CustomPhysicsData) (pdef : PartDef)
        (hp0 : Hardpoint),
        w.get parent = some pe → pe.customData = some pcd →
        pe.partDef = some pdef → pdef.hardpoints[i]? = some hp0 →
        pe.transformPresent = true → w.get part = some ce →
        ce.customData = none →
        ∃ msg, attach_part w parent part i = Except.error msg)
    ∧ (w.get part = none → detach_part fuel w part = Except.ok w)
    ∧ (∀ (e : EntityData) (pid : Nat),
        w.get part = some e → e.partParent = some pid → w.get pid = none →
        ∃ msg, detach_part fuel w part = Except.error msg) := by
  refine ⟨?_, ?_, ?_, ?_, ?_, ?_, ?_, ?_⟩
  · intro h
    exact attach_noop_nonexistent_parent w parent part i h
  · intro pe h1 h2
    exact attach_noop_parent_without_physics w parent part i pe h1 h2
  · intro pe pcd h1 h2 h3
    exact attach_noop_parent_not_part w parent part i pe pcd h1 h2 h3
  · intro pe pcd pdef h1 h2 h3 h4
    exact attach_noop_invalid_hardpoint w parent part i pe pcd pdef h1 h2 h3 h4
  · intro pe pcd pdef hp0 h1 h2 h3 h4 h5 h6
    exact ⟨_, attach_panic_dangling_child w parent part i pe pcd pdef hp0
      h1 h2 h3 h4 h5 h6⟩
  · intro pe ce pcd pdef hp0 h1 h2 h3 h4 h5 h6 h7
    exact ⟨_, attach_panic_child_without_physics w parent part i pe ce pcd
      pdef hp0 h1 h2 h3 h4 h5 h6 h7⟩
  · intro h
    exact detach_noop_nonexistent_part fuel w part h
  · intro e pid h1 h2 h3
    exact ⟨_, detach_panic_dangling_parent fuel w part e pid h1 h2 h3⟩

/-- World with a single component-free entity 1. -/
def worldBareEntity : World := [(1, emptyEntity)]

/-- World whose entity 1 has physics data but no part definition. -/
def worldNoDef : World :=
  [(1, { emptyEntity with customData := some ⟨some 1, false⟩ })]

/-- World whose entity 1 is a part with zero hardpoints. -/
def worldNoHardpoints : World :=
  [(1, { emptyEntity with
      customData := some ⟨some 1, false⟩,
      partDef := some (sampleDef 0),
      transformPresent := true })]

/-- World with a valid parent 1 and a child 2 lacking physics data. -/
def worldChildNoPhysics : World :=
  [(1, parentEntityB),
   (2, { emptyEntity with partDef := some (sampleDef 0) })]

/-- World whose entity 1 records a dangling parent 9. -/
def worldOrphan : World :=
  [(1, { emptyEntity with partParent := some 9 })]

/-- Witness for C3 at concrete worlds: each listed guard and panic case
realized. -/
theorem C3_error_handling_split_witness :
    attach_part ([] : World) 1 2 0 = Except.ok []
    ∧ attach_part worldBareEntity 1 2 0 = Except.ok worldBareEntity
    ∧ attach_part worldNoDef 1 2 0 = Except.ok worldNoDef
    ∧ attach_part worldNoHardpoints 1 2 0 = Except.ok worldNoHardpoints
    ∧ (∃ msg, attach_part attachWorldB 1 99 0 = Except.error msg)
    ∧ (∃ msg, attach_part worldChildNoPhysics 1 2 0 = Except.error msg)
    ∧ detach_part 10 ([] : World) 1 = Except.ok []
    ∧ (∃ msg, detach_part 10 worldOrphan 1 = Except.error msg) :=
  ⟨(C3_error_handling_split [] 1 2 0 10).1 (by decide),
   (C3_error_handling_split worldBareEntity 1 2 0 10).2.1 emptyEntity
     (by decide) (by decide),
   (C3_error_handling_split worldNoDef 1 2 0 10).2.2.1
     { emptyEntity with customData := some ⟨some 1, false⟩ }
     ⟨some 1, false⟩ (by decide) (by decide) (by decide),
   (C3_error_handling_split worldNoHardpoints 1 2 0 10).2.2.2.1
     { emptyEntity with
        customData := some ⟨some 1, false⟩,
        partDef := some (sampleDef 0),
        transformPresent := true }
     ⟨some 1, false⟩ (sampleDef 0) (by decide) (by decide) (by decide)
     (by decide),
   (C3_error_handling_split attachWorldB 1 99 0 10).2.2.2.2.1
     parentEntityB ⟨some 1, false⟩ (sampleDef 1) sampleHardpoint
     (by decide) (by decide) (by decide) (by decide) (by decide) (by decide),
   (C3_error_handling_split worldChildNoPhysics 1 2 0 10).2.2.2.2.2.1
     parentEntityB { emptyEntity with partDef := some (sampleDef 0) }
     ⟨some 1, false⟩ (sampleDef 1) sampleHardpoint
     (by decide) (by decide) (by decide) (by decide) (by decide) (by decide)
     (by decide),
   (C3_error_handling_split [] 1 1 0 10).2.2.2.2.2.2.1 (by decide),
   (C3_error_handling_split worldOrphan 1 1 0 10).2.2.2.2.2.2.2
     { emptyEntity with partParent := some 9 } 9
     (by decide) (by decide) (by decide)⟩

/-- Counterexample for C4: attaching part 2 onto parent 1's only hardpoint,
which is already occupied by part 3, silently overwrites the slot — the
state changes and the occupied slot is not preserved. -/
theorem C4_counterexample :
    childrenAfter (attach_part attachWorldB 1 2 0) 1 = some [some 2]
    ∧ ((some [some 2] : Option (List (Option Nat))) ≠ some [some 3])
    ∧ childrenAfter (Except.ok attachWorldB) 1 = some [some 3] := by
  decide

/-- C4 (amended): attach requires the parent to exist with physics data, a
part definition and an in-range hardpoint index, each failure being a
logged no-op (an out-of-range index changes no state); the slot being
empty is NOT required — a successful attach writes the child into the slot
whatever it previously held. -/
theorem C4_attach_preconditions (w : World) (parent part i : Nat) :
    (w.get parent = none → attach_part w parent part i = Except.ok w)
    ∧ (∀ pe : EntityData, w.get parent = some pe → pe.customData = none →
        attach_part w parent part i = Except.ok w)
    ∧ (∀ (pe : EntityData) (pcd : CustomPhysicsData),
        w.get parent = some pe → pe.customData = some pcd →
        pe.partDef = none → attach_part w parent part i = Except.ok w)
    ∧ (∀ (pe : EntityData) (pcd : CustomPhysicsData) (pdef : PartDef),
        w.get parent = some pe → pe.customData = some pcd →
        pe.partDef = some pdef → pdef.hardpoints[i]? = none →
        attach_part w parent part i = Except.ok w)
    ∧ (∀ (pe ce : EntityData) (pcd ccd : CustomPhysicsData)
        (pdef cdef : PartDef) (hp0 : Hardpoint)
        (ch : List (Option Nat)) (slot0 : Option Nat),
        w.get parent = some pe → pe.customData = some pcd →
        pe.partDef = some pdef → pdef.hardpoints[i]? = some hp0 →
        pe.transformPresent = true → w.get part = some ce →
        ce.customData = some ccd → ce.partDef = some cdef →
        pe.partChildren = some ch → ch[i]? = some slot0 → part ≠ parent →
        ∃ w', attach_part w parent part i = Except.ok w' ∧
          w'.get parent = some { pe with
            partChildren := some (ch.set i (some part)) }) := by
  refine ⟨?_, ?_, ?_, ?_, ?_⟩
  · intro h
    exact attach_noop_nonexistent_parent w parent part i h
  · intro pe h1 h2
    exact attach_noop_parent_without_physics w parent part i pe h1 h2
  · intro pe pcd h1 h2 h3
    exact attach_noop_parent_not_part w parent part i pe pcd h1 h2 h3
  · intro pe pcd pdef h1 h2 h3 h4
    exact attach_noop_invalid_hardpoint w parent part i pe pcd pdef h1 h2 h3 h4
  · intro pe ce pcd ccd pdef cdef hp0 ch slot0 h1 h2 h3 h4 h5 h6 h7 h8 h9 h10
      hne
    obtain ⟨w', heq, hpar, _, _⟩ :=
      attach_spec_success w parent part i pe ce pcd ccd pdef cdef hp0 ch
        slot0 h1 h2 h3 h4 h5 h6 h7 h8 h9 h10 hne
    exact ⟨w', heq, hpar⟩

/-- Witness for C4: an out-of-range index on a real world is a no-op, and
attaching into the occupied slot of `attachWorldB` succeeds and overwrites
it. -/
theorem C4_attach_preconditions_witness :
    attach_part attachWorldB 1 2 5 = Except.ok attachWorldB
    ∧ (∃ w', attach_part attachWorldB 1 2 0 = Except.ok w' ∧
        w'.get 1 = some { parentEntityB with
          partChildren := some [some 2] }) :=
  ⟨(C4_attach_preconditions attachWorldB 1 2 5).2.2.2.1
      parentEntityB ⟨some 1, false⟩ (sampleDef 1)
      (by decide) (by decide) (by decide) (by decide),
   by
    obtain ⟨w', heq, hpar⟩ :=
      (C4_attach_preconditions attachWorldB 1 2 0).2.2.2.2
        parentEntityB childEntityB ⟨some 1, false⟩ ⟨some 2, false⟩
        (sampleDef 1) (sampleDef 0) sampleHardpoint [some 3] (some 3)
        (by decide) (by decide) (by decide) (by decide) (by decide)
        (by decide) (by decide) (by decide) (by decide) (by decide)
        (by decide)
    exact ⟨w', heq, by rw [hpar]; rfl⟩⟩

/-- Counterexample for C5: detaching the parentless root 1 (which has the
attached child 2) is not a no-op — it severs and re-roots child 2 and
blanks the root's slot list, and it resets the root's tree root to `none`
rather than re-confirming it. -/
theorem C5_counterexample :
    childrenAfter (detach_part 10 detachWorldD 1) 1 = some [none]
    ∧ childrenAfter (Except.ok detachWorldD) 1 = some [some 2]
    ∧ rootAfter (detach_part 10 detachWorldD 1) 2 = some (some 2)
    ∧ parentAfter (detach_part 10 detachWorldD 1) 2 = some none
    ∧ parentAfter (Except.ok detachWorldD) 2 = some (some 1)
    ∧ rootAfter (detach_part 10 detachWorldD 1) 1 = some none
    ∧ rootAfter (Except.ok detachWorldD) 1 = some (some 1) := by
  decide

/-- C5 (amended): detaching a part with no parent skips the parent-slot
step but is not a no-op: it severs every attached immediate child,
re-rooting each child subtree at that child with ownership stripped and
collision re-enabled, blanks the part's slot list, removes its joint, and
sets its tree root to `none`. -/
theorem C5_detach_root_severs_children
    (fuel : Nat) (w : World) (p : Nat) (ep : EntityData)
    (psl : List (Option Nat)) (ts : List ETree) (cp : CustomPhysicsData)
    (hp : w.get p = some ep)
    (hparent : ep.partParent = none)
    (hpsl : ep.partChildren = some psl)
    (hfilter : psl.filterMap id = ts.map ETree.rootId)
    (hrep : ∀ t ∈ ts, Represents w t)
    (hnodup : (ETree.nodesList ts).Nodup)
    (hpnot : p ∉ ETree.nodesList ts)
    (hcp : ep.customData = some cp)
    (hfuel : ETree.esizeList ts ≤ fuel) :
    ∃ w', detach_part fuel w p = Except.ok w' ∧
      w'.get p = some { ep with
        partChildren := some (psl.map (fun _ => none)),
        impulseJoint := none,
        customData := some { cp with part_tree_root := none } } ∧
      (∀ t ∈ ts, ∃ e, w.get t.rootId = some e ∧
          w'.get t.rootId = some (detachedUpdate t.rootId (severUpdate e))) ∧
      (∀ t ∈ ts, ∀ j, j ∈ ETree.nodesList t.children →
          ∃ e, w.get j = some e ∧
            w'.get j = some (detachedUpdate t.rootId e)) ∧
      (∀ j, j ≠ p → j ∉ ETree.nodesList ts → w'.get j = w.get j) := by
  have hstep1 : detach_part fuel w p = detachSever fuel w p := by
    simp only [detach_part, hp, hparent]
  obtain ⟨w', heq, hpfin, hroots, hdescs, hout⟩ :=
    detachSever_spec fuel w p ep psl ts cp hp hpsl hfilter hrep hnodup
      hpnot hcp hfuel
  exact ⟨w', hstep1.trans heq, hpfin, hroots, hdescs, hout⟩

/-- Witness for C5 on root 1 with child 2: the detach succeeds. -/
theorem C5_detach_root_severs_children_witness :
    ∃ w', detach_part 10 detachWorldD 1 = Except.ok w' := by
  obtain ⟨w', heq, _⟩ :=
    C5_detach_root_severs_children 10 detachWorldD 1 rootEntityD
      [some 2] [ETree.node 2 []] ⟨some 1, false⟩
      (by decide) (by decide) (by decide) (by decide)
      (by
        intro t ht
        rw [List.mem_singleton] at ht
        subst ht
        exact Represents.node 2 [] childEntityD [] (by decide) (by decide)
          (by decide) (by decide) (by intro u hu; cases hu))
      (by simp [ETree.nodesList, ETree.nodes])
      (by simp [ETree.nodesList, ETree.nodes])
      (by decide)
      (by norm_num [ETree.esizeList, ETree.esize])
  exact ⟨w', heq⟩

end Integra
